import Mathlib

/-!
Verification of the H.E.M.A. manufacturing workflow core: a shallow
embedding, over exact rationals, of the pipe-spec validator
(`src/factory/pipeValidator.ts`), the task decomposer
(`src/factory/pipeBreakdown.ts`), the factory controller's workpiece and
machine operations (the tool-call version of `FactoryController`), and the
orchestration loops of `src/pages/OrchestratorView.tsx`.

Modelling conventions:
* JavaScript numbers are modelled by `ℚ` (IEEE rounding is out of scope);
  `Math.PI` and `Math.sqrt` enter only through step parameters and are
  passed as explicit parameters `pi : ℚ` and `sq : ℚ → ℚ`.
* Optional numeric fields are `Option ℚ`; the JavaScript falsy-coalescing
  idiom `x || d` on a possibly-missing number is `jsOr`.
* Human-readable `description` strings and binary image attachments are
  presentational and omitted from steps; result strings of operations are
  modelled verbatim because the dispatch loop inspects them.
-/

namespace Hema

/-- Machine capability bounds, `CONSTRAINTS` in `src/factory/types.ts`. -/
structure Constraints where
  rollerDiameterMin : ℚ
  rollerDiameterMax : ℚ
  rollerHeightMin : ℚ
  rollerHeightMax : ℚ
  frustrumTopRadiusMin : ℚ
  frustrumTopRadiusMax : ℚ
  frustrumBottomRadiusMin : ℚ
  frustrumBottomRadiusMax : ℚ
  frustrumHeightMin : ℚ
  frustrumHeightMax : ℚ
  minSegmentHeight : ℚ
  minTotalLength : ℚ
  maxTotalLength : ℚ

/-- The constant object `CONSTRAINTS` from `src/factory/types.ts`. -/
def CONSTRAINTS : Constraints :=
  { rollerDiameterMin := 3/10
    rollerDiameterMax := 2
    rollerHeightMin := 1
    rollerHeightMax := 5
    frustrumTopRadiusMin := 1/5
    frustrumTopRadiusMax := 1
    frustrumBottomRadiusMin := 3/10
    frustrumBottomRadiusMax := 6/5
    frustrumHeightMin := 3/10
    frustrumHeightMax := 3/2
    minSegmentHeight := 1
    minTotalLength := 1
    maxTotalLength := 50 }

/-- The `type` discriminator of `PipeSegment`. -/
inductive SegType where
  | cylinder
  | frustrum
deriving DecidableEq, Repr

/-- `PipeSegment` from `src/factory/types.ts`: optional fields are unset
(`undefined`) when `none`. -/
structure PipeSegment where
  type : SegType
  height : ℚ
  diameter : Option ℚ := none
  topDiameter : Option ℚ := none
  bottomDiameter : Option ℚ := none
deriving DecidableEq, Repr

/-- `PipeSpec` from `src/factory/types.ts`. -/
structure PipeSpec where
  totalLength : ℚ
  initialDiameter : ℚ
  segments : List PipeSegment
deriving DecidableEq, Repr

/-- JavaScript `x || d` for an optional number `x`: `undefined` and `0`
are falsy and select the default. -/
def jsOr (x : Option ℚ) (d : ℚ) : ℚ :=
  match x with
  | none => d
  | some v => if v = 0 then d else v

/-- JavaScript truthiness of an optional number. -/
def truthy (x : Option ℚ) : Bool :=
  match x with
  | none => false
  | some v => v ≠ 0

/-- `segments.reduce((sum, s) => sum + s.height, 0)`. -/
def heightSum (segs : List PipeSegment) : ℚ :=
  segs.foldl (fun sum s => sum + s.height) 0

/-- `Math.min` on two numbers. -/
def minQ (a b : ℚ) : ℚ := if a ≤ b then a else b

/-- One iteration body of the auto-fill loops: a cylinder segment of
height `min(left, rollerHeightMax)` at diameter `dia`. -/
def fillCylinder (dia left : ℚ) : PipeSegment :=
  { type := .cylinder, height := minQ left CONSTRAINTS.rollerHeightMax, diameter := some dia }

/-- The greedy fill loop
`while (left >= CONSTRAINTS.minSegmentHeight) { h = min(left, rollerHeightMax); push cylinder; left -= h }`
from `autoFillSegments`, driven by an explicit fuel that bounds the
iteration count; `fillSegments` supplies sufficient fuel and
`fillSegments_eq` recovers the exact while-loop equation. -/
def fillAux : Nat → ℚ → ℚ → List PipeSegment
  | 0, _, _ => []
  | n + 1, dia, left =>
    if CONSTRAINTS.minSegmentHeight ≤ left then
      fillCylinder dia left :: fillAux n dia (left - minQ left CONSTRAINTS.rollerHeightMax)
    else []

/-- The auto-fill while loop with its termination measure `⌈left⌉₊`. -/
def fillSegments (dia left : ℚ) : List PipeSegment :=
  fillAux (Nat.ceil left) dia left

/-- The scan in `autoFillSegments` that finds the running diameter at the
end of the declared segments
(`if (seg.type === "frustrum" && seg.bottomDiameter) dia = seg.bottomDiameter`). -/
def autoFillDia (spec : PipeSpec) : ℚ :=
  spec.segments.foldl
    (fun d seg =>
      if seg.type = SegType.frustrum ∧ truthy seg.bottomDiameter then jsOr seg.bottomDiameter d
      else d)
    spec.initialDiameter

/-- `autoFillSegments` from `src/factory/pipeValidator.ts`. -/
def autoFillSegments (spec : PipeSpec) : List PipeSegment :=
  if spec.segments.length > 0 then
    if CONSTRAINTS.minSegmentHeight ≤ spec.totalLength - heightSum spec.segments then
      spec.segments ++ fillSegments (autoFillDia spec) (spec.totalLength - heightSum spec.segments)
    else spec.segments
  else fillSegments spec.initialDiameter spec.totalLength

/-! ### Validator (`validatePipeSpec` in `src/factory/pipeValidator.ts`)

Error and warning messages are identified by which `errors.push` /
`warnings.push` site produced them (segment-level ones also carry the
0-based segment index); the interpolated message text itself is
presentational and not modelled. -/

/-- One tag per `errors.push` site of `validatePipeSpec`. -/
inductive VError where
  | totalLengthRequired
  | totalLengthTooShort
  | totalLengthTooLong
  | initialDiameterRequired
  | initialDiameterTooSmall
  | initialDiameterTooLarge
  | cylinderHeightTooSmall (i : Nat)
  | cylinderHeightTooLarge (i : Nat)
  | frustrumTopRadiusOutOfRange (i : Nat)
  | frustrumBottomRadiusOutOfRange (i : Nat)
  | frustrumHeightTooSmall (i : Nat)
  | frustrumHeightTooLarge (i : Nat)
  | segmentsExceedTotalLength
deriving DecidableEq, Repr

/-- One tag per `warnings.push` site of `validatePipeSpec`. -/
inductive VWarning where
  | remainderBelowMinSegment
  | autoSplitNeeded
deriving DecidableEq, Repr

/-- `ValidationResult` from `src/factory/pipeValidator.ts`. -/
structure ValidationResult where
  valid : Bool
  errors : List VError
  warnings : List VWarning
deriving DecidableEq, Repr

/-- The required-field checks on `totalLength` and `initialDiameter`
at the top of `validatePipeSpec` (`!x || x <= 0` collapses to `x ≤ 0`
for real numbers, as `!0` is truthy). -/
def topLevelErrors (spec : PipeSpec) : List VError :=
  (if spec.totalLength ≤ 0 then [VError.totalLengthRequired]
   else if spec.totalLength < CONSTRAINTS.minTotalLength then [VError.totalLengthTooShort]
   else if spec.totalLength > CONSTRAINTS.maxTotalLength then [VError.totalLengthTooLong]
   else []) ++
  (if spec.initialDiameter ≤ 0 then [VError.initialDiameterRequired]
   else if spec.initialDiameter < CONSTRAINTS.rollerDiameterMin then [VError.initialDiameterTooSmall]
   else if spec.initialDiameter > CONSTRAINTS.rollerDiameterMax then [VError.initialDiameterTooLarge]
   else [])

/-- The errors pushed for segment `i` given the running diameter `rd`. -/
def segErrors (i : Nat) (rd : ℚ) (seg : PipeSegment) : List VError :=
  match seg.type with
  | .cylinder =>
    (if seg.height < CONSTRAINTS.minSegmentHeight then [VError.cylinderHeightTooSmall i] else []) ++
    (if seg.height > CONSTRAINTS.rollerHeightMax then [VError.cylinderHeightTooLarge i] else [])
  | .frustrum =>
    let topR := rd / 2
    let bottomR := jsOr seg.bottomDiameter rd / 2
    (if topR < CONSTRAINTS.frustrumTopRadiusMin ∨ topR > CONSTRAINTS.frustrumTopRadiusMax then
      [VError.frustrumTopRadiusOutOfRange i] else []) ++
    (if bottomR < CONSTRAINTS.frustrumBottomRadiusMin ∨ bottomR > CONSTRAINTS.frustrumBottomRadiusMax then
      [VError.frustrumBottomRadiusOutOfRange i] else []) ++
    (if seg.height < CONSTRAINTS.frustrumHeightMin then [VError.frustrumHeightTooSmall i] else []) ++
    (if seg.height > CONSTRAINTS.frustrumHeightMax then [VError.frustrumHeightTooLarge i] else [])

/-- How one segment advances the running diameter: a frustrum's falsy-coalesced
`bottomDiameter` becomes the running diameter, a cylinder leaves it. -/
def threadDia (rd : ℚ) (seg : PipeSegment) : ℚ :=
  match seg.type with
  | .cylinder => rd
  | .frustrum => jsOr seg.bottomDiameter rd

/-- The segment loop of `validatePipeSpec`: returns the pushed errors, the
final running diameter, the final `usedLength`, and the mutated segments
(`seg.diameter` resp. `seg.topDiameter` overwritten with the running
diameter). -/
def valLoop (i : Nat) (rd used : ℚ) : List PipeSegment → List VError × ℚ × ℚ × List PipeSegment
  | [] => ([], rd, used, [])
  | seg :: rest =>
    match seg.type with
    | .cylinder =>
      let out := valLoop (i + 1) rd (used + seg.height) rest
      (segErrors i rd seg ++ out.1, out.2.1, out.2.2.1, { seg with diameter := some rd } :: out.2.2.2)
    | .frustrum =>
      let out := valLoop (i + 1) (jsOr seg.bottomDiameter rd) (used + seg.height) rest
      (segErrors i rd seg ++ out.1, out.2.1, out.2.2.1, { seg with topDiameter := some rd } :: out.2.2.2)

/-- `validatePipeSpec` from `src/factory/pipeValidator.ts` (its in-place
mutation of `spec.segments` is returned by `valLoop` but does not enter
the result). -/
def validatePipeSpec (spec : PipeSpec) : ValidationResult :=
  let errs0 := topLevelErrors spec
  if errs0.length > 0 ∧ spec.segments.length = 0 then
    { valid := false, errors := errs0, warnings := [] }
  else
    let out := valLoop 0 spec.initialDiameter 0 spec.segments
    let usedLength := out.2.2.1
    let errs := errs0 ++ out.1 ++
      (if spec.totalLength > 0 ∧ usedLength > spec.totalLength then [VError.segmentsExceedTotalLength] else [])
    let remainingLength := spec.totalLength - usedLength
    let warns :=
      (if remainingLength > 0 ∧ remainingLength < CONSTRAINTS.minSegmentHeight then
        [VWarning.remainderBelowMinSegment] else []) ++
      (if spec.segments.length = 0 ∧ spec.totalLength > CONSTRAINTS.rollerHeightMax then
        [VWarning.autoSplitNeeded] else [])
    { valid := errs.isEmpty, errors := errs, warnings := warns }

/-- The running diameter `validatePipeSpec` / `breakdownPipeSpec` hold just
before processing declared segment `i`. -/
def runningDiaAt (spec : PipeSpec) (i : Nat) : ℚ :=
  (spec.segments.take i).foldl threadDia spec.initialDiameter

/-- Replace the `bottomDiameter` field of the segment at index `i`. -/
def setBDList : List PipeSegment → Nat → Option ℚ → List PipeSegment
  | [], _, _ => []
  | seg :: rest, 0, bd => { seg with bottomDiameter := bd } :: rest
  | seg :: rest, i + 1, bd => seg :: setBDList rest i bd

/-- Replace the `bottomDiameter` field of declared segment `i`. -/
def setBD (spec : PipeSpec) (i : Nat) (bd : Option ℚ) : PipeSpec :=
  { spec with segments := setBDList spec.segments i bd }

/-! ### Task decomposer (`breakdownPipeSpec` in `src/factory/pipeBreakdown.ts`) -/

/-- `MachineId` from the factory types; `pipeRack` is the finished-goods
station of the tool-call controller. -/
inductive MachineId where
  | sheetStock
  | cutter
  | roller
  | press
  | welder
  | pipeRack
deriving DecidableEq, Repr

/-- `StepAction` from `src/factory/types.ts`. -/
inductive StepAction where
  | fetch_sheet
  | cut_sheet
  | bend_cylinder
  | press_frustrum
  | weld_seam
  | weld_sections
deriving DecidableEq, Repr

/-- Step lifecycle states. -/
inductive StepStatus where
  | pending
  | in_progress
  | completed
  | failed
deriving DecidableEq, Repr

/-- `ManufacturingStep` from `src/factory/types.ts`; `params` keeps the
`Record<string, number>` insertion order, the human-readable `description`
is presentational and omitted. -/
structure ManufacturingStep where
  id : String
  machineId : MachineId
  action : StepAction
  params : List (String × ℚ)
  segmentIndex : Nat
  status : StepStatus
  workerId : Option Nat := none
deriving DecidableEq, Repr

/-- `makeStep` from `src/factory/pipeBreakdown.ts`: `counter` is the value
of the module-level `stepCounter` before the pre-increment. -/
def makeStep (machineId : MachineId) (action : StepAction) (params : List (String × ℚ))
    (segmentIndex : Nat) (counter : Nat) : ManufacturingStep :=
  { id := "step-" ++ toString (counter + 1)
    machineId := machineId
    action := action
    params := params
    segmentIndex := segmentIndex
    status := .pending }

/-- The four steps emitted for a cylinder segment (`pi` stands for
`Math.PI`). -/
def cylinderSteps (pi : ℚ) (i c : Nat) (rd : ℚ) (seg : PipeSegment) : List ManufacturingStep :=
  let diameter := jsOr seg.diameter rd
  let circumference := pi * diameter
  [makeStep .sheetStock .fetch_sheet [("width", circumference), ("height", seg.height)] i c,
   makeStep .cutter .cut_sheet [("width", circumference), ("height", seg.height)] i (c + 1),
   makeStep .roller .bend_cylinder [("diameter", diameter), ("height", seg.height)] i (c + 2),
   makeStep .welder .weld_seam [("diameter", diameter), ("height", seg.height)] i (c + 3)]

/-- The four steps emitted for a frustrum segment (`sq` stands for
`Math.sqrt`). -/
def frustrumSteps (pi : ℚ) (sq : ℚ → ℚ) (i c : Nat) (rd : ℚ) (seg : PipeSegment) :
    List ManufacturingStep :=
  let topDia := jsOr seg.topDiameter rd
  let bottomDia := jsOr seg.bottomDiameter rd
  let topR := topDia / 2
  let bottomR := bottomDia / 2
  let slantHeight := sq (seg.height ^ 2 + (bottomR - topR) ^ 2)
  let avgCircumference := pi * (topDia + bottomDia) / 2
  [makeStep .sheetStock .fetch_sheet [("width", avgCircumference), ("height", slantHeight)] i c,
   makeStep .cutter .cut_sheet [("width", avgCircumference), ("height", slantHeight)] i (c + 1),
   makeStep .press .press_frustrum
     [("topRadius", topR), ("bottomRadius", bottomR), ("frustrumHeight", seg.height)] i (c + 2),
   makeStep .welder .weld_seam
     [("topRadius", topR), ("bottomRadius", bottomR), ("height", seg.height)] i (c + 3)]

/-- The per-segment loop of `breakdownPipeSpec`, threading the segment
index `i`, the step counter `c` and the running diameter `rd`. -/
def breakdownLoop (pi : ℚ) (sq : ℚ → ℚ) : List PipeSegment → Nat → Nat → ℚ → List ManufacturingStep
  | [], _, _, _ => []
  | seg :: rest, i, c, rd =>
    match seg.type with
    | .cylinder => cylinderSteps pi i c rd seg ++ breakdownLoop pi sq rest (i + 1) (c + 4) rd
    | .frustrum =>
      frustrumSteps pi sq i c rd seg ++
        breakdownLoop pi sq rest (i + 1) (c + 4) (jsOr seg.bottomDiameter rd)

/-- The final-assembly loop: for `i` in `1 .. segCount-1` a circumferential
`weld_sections` step joining segment `i-1` to segment `i` (`k = i - 1`). -/
def joinSteps (segCount : Nat) : List ManufacturingStep :=
  (List.range (segCount - 1)).map fun (k : ℕ) =>
    makeStep .welder .weld_sections
      [("sectionA", (k : ℚ)), ("sectionB", ((k : ℚ) + 1))] (k + 1) (4 * segCount + k)

/-- `breakdownPipeSpec` from `src/factory/pipeBreakdown.ts`, with
`stepCounter` reset to 0 on entry. -/
def breakdownPipeSpec (pi : ℚ) (sq : ℚ → ℚ) (spec : PipeSpec) : List ManufacturingStep :=
  let segments := autoFillSegments spec
  breakdownLoop pi sq segments 0 0 spec.initialDiameter ++
    (if segments.length > 1 then joinSteps segments.length else [])

/-! ### Factory controller (tool-call `FactoryController`)

State model of the controller's workpiece bookkeeping. Meshes are numbered
by creation order; `existing` lists the meshes created and not yet
disposed, `geom` their current geometry, `storedPipes` those committed to
the pipe rack. Scene positions, gesture animations, the WebGL vision
renderer and the worker status/position fields belong to the excluded
rendering layer and are not tracked; `JSON.stringify` result payloads are
abstracted to fixed placeholder strings. The updated factory `types`
module (machine roster constants) is not among the sources; the worker
roster size (5, one per machine) and the rack capacity (5 cradle slots in
`createPipeRack`) are taken from the initialization code. -/

/-- `RollerParams` from `src/factory/types.ts`. -/
structure RollerParams where
  diameter : ℚ
  height : ℚ
deriving DecidableEq, Repr

/-- `PressParams` from `src/factory/types.ts`. -/
structure PressParams where
  topRadius : ℚ
  bottomRadius : ℚ
  frustrumHeight : ℚ
deriving DecidableEq, Repr

/-- `MachineParameters` from `src/factory/types.ts`. -/
structure MachineParameters where
  roller : RollerParams
  press : PressParams
deriving DecidableEq, Repr

/-- `DEFAULT_PARAMS` from the controller. -/
def DEFAULT_PARAMS : MachineParameters :=
  { roller := { diameter := 1, height := 3 }
    press := { topRadius := 2/5, bottomRadius := 3/5, frustrumHeight := 4/5 } }

/-- The THREE.js geometry currently attached to a workpiece mesh, as far
as the controller rewrites it. -/
inductive Geometry where
  | box (w h d : ℚ)
  | cylinder (radiusTop radiusBottom height : ℚ) (openEnded : Bool)
deriving DecidableEq, Repr

/-- The carry slot of one `WorkerRobot` (`carriedMesh`). -/
structure WorkerRobotState where
  carriedMesh : Option Nat
deriving DecidableEq, Repr

/-- The mutable fields of the tool-call `FactoryController` relevant to
workpiece tracking. -/
structure ControllerState where
  workpiece : Option Nat
  nextMeshId : Nat
  existing : List Nat
  geom : List (Nat × Geometry)
  storedPipes : List Nat
  nextCradleIndex : Nat
  workers : List WorkerRobotState
  params : MachineParameters
deriving DecidableEq, Repr

/-- `slotCount` of `createPipeRack`: the rack has 5 cradle positions. -/
def rackCapacity : Nat := 5

/-- The controller state right after `initialize`: one worker per machine
station, default machine parameters, no workpiece. -/
def initController : ControllerState :=
  { workpiece := none
    nextMeshId := 0
    existing := []
    geom := []
    storedPipes := []
    nextCradleIndex := 0
    workers := List.replicate 5 { carriedMesh := none }
    params := DEFAULT_PARAMS }

/-- The string form of a `MachineId` (the TypeScript union value). -/
def machineName : MachineId → String
  | .sheetStock => "sheetStock"
  | .cutter => "cutter"
  | .roller => "roller"
  | .press => "press"
  | .welder => "welder"
  | .pipeRack => "pipeRack"

/-- Overwrite the geometry of mesh `m` (the old geometry is disposed). -/
def geomSet (s : ControllerState) (m : Nat) (g : Geometry) : ControllerState :=
  { s with geom := (m, g) :: s.geom.filter (fun p => p.1 ≠ m) }

/-- Read the geometry of mesh `m`. -/
def geomGet (s : ControllerState) (m : Nat) : Option Geometry :=
  (s.geom.find? (fun p => p.1 = m)).map Prod.snd

/-- `disposeWorkpiece`: remove and dispose the current workpiece mesh, if
any (a worker still pointing at it keeps a dangling `carriedMesh`, exactly
as in the source). -/
def disposeWorkpiece (s : ControllerState) : ControllerState :=
  match s.workpiece with
  | none => s
  | some m =>
    { s with workpiece := none
             existing := s.existing.erase m
             geom := s.geom.filter (fun p => p.1 ≠ m) }

/-- `createNewWorkpiece`: dispose any existing workpiece, then create a
fresh sheet mesh (`BoxGeometry(1.8, 0.04, 1.2)`) and make it the live
workpiece. -/
def createNewWorkpiece (s : ControllerState) : ControllerState :=
  let s1 := disposeWorkpiece s
  { s1 with workpiece := some s1.nextMeshId
            existing := s1.nextMeshId :: s1.existing
            geom := (s1.nextMeshId, Geometry.box (9/5) (1/25) (6/5)) :: s1.geom
            nextMeshId := s1.nextMeshId + 1 }

/-- `attachWorkpieceToWorker`: attach the live workpiece mesh to worker
`w`; a no-op when there is no workpiece or no such worker. A previous
carrier's `carriedMesh` is not cleared (the mesh is only reparented). -/
def attachWorkpieceToWorker (s : ControllerState) (w : Nat) : ControllerState :=
  match s.workpiece with
  | none => s
  | some m =>
    if w < s.workers.length then
      { s with workers := s.workers.set w { carriedMesh := some m } }
    else s

/-- `detachWorkpieceFromWorker`: clear worker `w`'s carry slot and return
the mesh to the scene; a no-op when the worker carries nothing. -/
def detachWorkpieceFromWorker (s : ControllerState) (w : Nat) : ControllerState :=
  match s.workers.get? w with
  | none => s
  | some wk =>
    match wk.carriedMesh with
    | none => s
    | some _ => { s with workers := s.workers.set w { carriedMesh := none } }

/-- `storeWorkpieceInRack`: when a live workpiece exists, commit it to the
next free cradle (if any) and always clear the live reference; with a full
rack the mesh is left in the scene unreferenced. -/
def storeWorkpieceInRack (s : ControllerState) : ControllerState :=
  match s.workpiece with
  | none => s
  | some m =>
    let s1 :=
      if s.nextCradleIndex < rackCapacity then
        { s with storedPipes := s.storedPipes ++ [m], nextCradleIndex := s.nextCradleIndex + 1 }
      else s
    { s1 with workpiece := none }

/-- `moveWorkerToMachine` (the walk itself is animation-layer). -/
def moveWorkerToMachine (s : ControllerState) (w : Nat) (m : MachineId) :
    String × ControllerState :=
  if w < s.workers.length then
    ("Worker " ++ toString w ++ " arrived at " ++ machineName m, s)
  else
    ("Worker " ++ toString w ++ " not found", s)

/-- `fetchSheet`: pick-up gesture, create a fresh sheet workpiece, attach
it to worker `w`. -/
def fetchSheet (s : ControllerState) (w : Nat) : String × ControllerState :=
  if w < s.workers.length then
    ("Fresh sheet picked up from stock and attached for carrying",
      attachWorkpieceToWorker (createNewWorkpiece s) w)
  else ("Worker not found", s)

/-- `carryAndPlace`: detach from worker `w` and place the workpiece at
machine `m` (placement is a scene-position change). -/
def carryAndPlace (s : ControllerState) (w : Nat) (m : MachineId) : String × ControllerState :=
  if w < s.workers.length then
    ("Workpiece placed at " ++ machineName m, detachWorkpieceFromWorker s w)
  else ("Worker not found", s)

/-- `pickUpFrom`: gesture, then attach the live workpiece to worker `w`.
The method performs no single-carry or location check. -/
def pickUpFrom (s : ControllerState) (w : Nat) (m : MachineId) : String × ControllerState :=
  if w < s.workers.length then
    ("Picked up workpiece from " ++ machineName m, attachWorkpieceToWorker s w)
  else ("Worker not found", s)

/-- `storeInRackFromWorker`: detach from worker `w`, then store in the
rack. -/
def storeInRackFromWorker (s : ControllerState) (w : Nat) : String × ControllerState :=
  if w < s.workers.length then
    ("Pipe segment stored in rack", storeWorkpieceInRack (detachWorkpieceFromWorker s w))
  else ("Worker not found", s)

/-- `setRollerParams`. -/
def setRollerParams (s : ControllerState) (p : RollerParams) : ControllerState :=
  { s with params := { s.params with roller := p } }

/-- `setPressParams`. -/
def setPressParams (s : ControllerState) (p : PressParams) : ControllerState :=
  { s with params := { s.params with press := p } }

/-- `operateMachineWithWorker`: runs the machine (worker gesture plus
machine animation), rewriting the live workpiece's geometry for roller,
press and welder; it never checks whether the machine was configured for
the current job and always reports success. -/
def operateMachineWithWorker (s : ControllerState) (w : Nat) (m : MachineId) :
    String × ControllerState :=
  if w < s.workers.length then
    let s1 :=
      match m with
      | .roller =>
        match s.workpiece with
        | some mm =>
          let r := s.params.roller.diameter / 2
          let displayH := minQ (s.params.roller.height * (1/2)) (3/2)
          geomSet s mm (Geometry.cylinder r r displayH true)
        | none => s
      | .press =>
        match s.workpiece with
        | some mm =>
          let displayH := minQ (s.params.press.frustrumHeight * (1/2)) (3/2)
          geomSet s mm
            (Geometry.cylinder s.params.press.topRadius s.params.press.bottomRadius displayH false)
        | none => s
      | .welder =>
        match s.workpiece with
        | some mm =>
          match geomGet s mm with
          | some (Geometry.cylinder rt rb h _) => geomSet s mm (Geometry.cylinder rt rb h false)
          | _ => s
        | none => s
      | _ => s
    (machineName m ++ " operation completed successfully", s1)
  else ("Not ready", s)

/-- The controller entry points the worker tools dispatch to, as a single
operation type (used to quantify over call sequences). -/
inductive FactoryOp where
  | fetchSheet (w : Nat)
  | createNewWorkpiece
  | pickUpFrom (w : Nat) (m : MachineId)
  | carryAndPlace (w : Nat) (m : MachineId)
  | storeInRack (w : Nat)
  | operateMachine (w : Nat) (m : MachineId)
  | setRollerParams (p : RollerParams)
  | setPressParams (p : PressParams)
deriving DecidableEq, Repr

/-- Execute one controller operation (dropping the result string). -/
def execOp (s : ControllerState) : FactoryOp → ControllerState
  | .fetchSheet w => (fetchSheet s w).2
  | .createNewWorkpiece => createNewWorkpiece s
  | .pickUpFrom w m => (pickUpFrom s w m).2
  | .carryAndPlace w m => (carryAndPlace s w m).2
  | .storeInRack w => (storeInRackFromWorker s w).2
  | .operateMachine w m => (operateMachineWithWorker s w m).2
  | .setRollerParams p => setRollerParams s p
  | .setPressParams p => setPressParams s p

/-- Execute a sequence of controller operations. -/
def execOps (s : ControllerState) (ops : List FactoryOp) : ControllerState :=
  ops.foldl execOp s

/-- The live uncommitted workpiece meshes: created, not disposed, and not
committed to the rack. -/
def liveUncommitted (s : ControllerState) : List Nat :=
  s.existing.filter (fun m => m ∉ s.storedPipes)

/-- Whether an operation is a rack store. -/
def isStore : FactoryOp → Bool
  | .storeInRack _ => true
  | _ => false

/-- How many cradle slots one operation can consume. -/
def storeBudget (op : FactoryOp) : Nat := if isStore op then 1 else 0

/-- How many rack stores a call sequence performs. -/
def storeCount (ops : List FactoryOp) : Nat :=
  ops.countP isStore

/-! ### Worker session loop (`runWorkerTask` in `src/pages/OrchestratorView.tsx`)

The reasoning service is modelled as a response stream `respond : Nat →
ApiResponse`, the n-th `/api/worker` request receiving `respond n`, and the
loop records every request body it sends. Network and JSON transport are
assumed lossless; the fire-and-forget `/api/worker/reset` teardown calls
carry no state and are not recorded. -/

/-- `WORKER_MAX_ITERATIONS` from `src/pages/OrchestratorView.tsx`. -/
def WORKER_MAX_ITERATIONS : Nat := 20

/-- The worker tools of the `runWorkerTask` switch, with their arguments. -/
inductive WorkerTool where
  | walkToMachine (machineId : MachineId)
  | captureVision
  | getWorkerStatus
  | pickUpSheet
  | pickUpWorkpiece (machineId : MachineId)
  | placeWorkpiece (machineId : MachineId)
  | storeInRack
  | operateCutter
  | setRollerParams (diameter height : ℚ)
  | operateRoller
  | setPressParams (topRadius bottomRadius frustrumHeight : ℚ)
  | operatePress
  | operateWelder
  | reportTaskComplete (summary : String)
  | reportProblem (problem : String)
  | unknownTool (name : String)
deriving DecidableEq, Repr

/-- The wire name of a worker tool (the `name` echoed in tool results). -/
def workerToolName : WorkerTool → String
  | .walkToMachine _ => "walkToMachine"
  | .captureVision => "captureVision"
  | .getWorkerStatus => "getWorkerStatus"
  | .pickUpSheet => "pickUpSheet"
  | .pickUpWorkpiece _ => "pickUpWorkpiece"
  | .placeWorkpiece _ => "placeWorkpiece"
  | .storeInRack => "storeInRack"
  | .operateCutter => "operateCutter"
  | .setRollerParams _ _ => "setRollerParams"
  | .operateRoller => "operateRoller"
  | .setPressParams _ _ _ => "setPressParams"
  | .operatePress => "operatePress"
  | .operateWelder => "operateWelder"
  | .reportTaskComplete _ => "reportTaskComplete"
  | .reportProblem _ => "reportProblem"
  | .unknownTool n => n

/-- Whether a tool call ends the worker session (`reportTaskComplete` or
`reportProblem`, terminal by contract). -/
def isTerminalCall : WorkerTool → Bool
  | .reportTaskComplete _ => true
  | .reportProblem _ => true
  | _ => false

/-- Placeholder for `JSON.stringify` of a worker snapshot (presentational). -/
def workerStatusText (s : ControllerState) (w : Nat) : String :=
  match s.workers.get? w with
  | some _ => "worker " ++ toString w ++ " status"
  | none => "{}"

/-- One non-terminal case of the `runWorkerTask` tool switch: the result
string and the state after the dispatched controller call. The terminal
`reportTaskComplete` / `reportProblem` cases are handled by
`execWorkerCalls`. -/
def execWorkerTool (w : Nat) (s : ControllerState) : WorkerTool → String × ControllerState
  | .walkToMachine m => moveWorkerToMachine s w m
  | .captureVision =>
    (if w < s.workers.length then "Vision captured successfully. Image attached."
     else "Vision capture failed.", s)
  | .getWorkerStatus => (workerStatusText s w, s)
  | .pickUpSheet => fetchSheet s w
  | .pickUpWorkpiece m => pickUpFrom s w m
  | .placeWorkpiece m => carryAndPlace s w m
  | .storeInRack => storeInRackFromWorker s w
  | .operateCutter => operateMachineWithWorker s w .cutter
  | .setRollerParams d h =>
    ("Roller params set: diameter=" ++ toString d ++ "m, height=" ++ toString h ++ "m",
      setRollerParams s { diameter := d, height := h })
  | .operateRoller => operateMachineWithWorker s w .roller
  | .setPressParams tr br fh =>
    ("Press params set: top=" ++ toString tr ++ "m, bottom=" ++ toString br ++ "m, h=" ++
        toString fh ++ "m",
      setPressParams s { topRadius := tr, bottomRadius := br, frustrumHeight := fh })
  | .operatePress => operateMachineWithWorker s w .press
  | .operateWelder => operateMachineWithWorker s w .welder
  | .reportTaskComplete _ => ("", s)
  | .reportProblem _ => ("", s)
  | .unknownTool n => ("Unknown tool: " ++ n, s)

/-- Outcome of resolving one batch of worker tool calls. -/
inductive CallsResult where
  | finished (toolResults : List (String × String)) (state : ControllerState)
  | terminal (result : String) (state : ControllerState)
deriving DecidableEq, Repr

/-- Resolve a batch of tool calls sequentially; `reportTaskComplete` /
`reportProblem` return immediately from the session (results accumulated
so far are discarded, later calls in the batch never run). -/
def execWorkerCalls (w : Nat) (s : ControllerState) : List WorkerTool → CallsResult
  | [] => .finished [] s
  | call :: rest =>
    match call with
    | .reportTaskComplete summary =>
      .terminal (if summary = "" then "Task completed" else summary) s
    | .reportProblem problem => .terminal ("Worker reported problem: " ++ problem) s
    | other =>
      let out := execWorkerTool w s other
      match execWorkerCalls w out.2 rest with
      | .finished rs s2 => .finished ((workerToolName other, out.1) :: rs) s2
      | .terminal r s2 => .terminal r s2

/-- A reasoning-service response (`ApiResponse` in
`src/pages/OrchestratorView.tsx`): a terminal text report, a tool-call
batch, or an error optionally carrying a rate-limit retry delay in
milliseconds. -/
inductive ApiResponse where
  | text (t : String)
  | toolCalls (calls : List WorkerTool)
  | error (msg : String) (retryAfter : Option Nat)
deriving DecidableEq, Repr

/-- A request body sent to `/api/worker`: a user message or a batch of
tool results. -/
inductive WorkerRequest where
  | message (text : String)
  | toolResults (results : List (String × String))
deriving DecidableEq, Repr

/-- Outcome of a worker session: the terminal result string, the final
controller state, the `/api/worker` request bodies sent in order, and the
number of tool-call batches resolved. -/
structure WorkerRunResult where
  result : String
  state : ControllerState
  requests : List WorkerRequest
  rounds : Nat
deriving DecidableEq, Repr

/-- The literal retry message the loop sends after a rate-limit wait. -/
def workerRetryMessage : String := "Please continue with your task."

/-- JavaScript truthiness of the optional `retryAfter` duration (a zero
delay is falsy and is treated as a plain error). -/
def truthyMs (x : Option Nat) : Bool :=
  match x with
  | none => false
  | some v => v ≠ 0

/-- The bounded `for` loop of `runWorkerTask`: `fuel` is the number of
iterations left, `idx` indexes the response currently held in `data`.
Each iteration consumes one response; a rate-limited error waits and sends
`workerRetryMessage`, a plain error or a text report is terminal, and a
tool batch is resolved and its results submitted. Exhausting the fuel
yields the timed-out result. -/
def runWorkerLoop (w : Nat) (respond : Nat → ApiResponse) :
    Nat → Nat → ControllerState → List WorkerRequest → Nat → WorkerRunResult
  | 0, _, s, reqs, rounds =>
    { result := "Worker task timed out (max iterations)", state := s, requests := reqs
      rounds := rounds }
  | fuel + 1, idx, s, reqs, rounds =>
    match respond idx with
    | .error msg retryAfter =>
      if truthyMs retryAfter then
        runWorkerLoop w respond fuel (idx + 1) s (reqs ++ [.message workerRetryMessage]) rounds
      else
        { result := "Worker error: " ++ msg, state := s, requests := reqs, rounds := rounds }
    | .text t =>
      { result := if t = "" then "Worker completed (no summary)" else t, state := s
        requests := reqs, rounds := rounds }
    | .toolCalls calls =>
      match execWorkerCalls w s calls with
      | .terminal r s1 => { result := r, state := s1, requests := reqs, rounds := rounds + 1 }
      | .finished rs s1 =>
        runWorkerLoop w respond fuel (idx + 1) s1 (reqs ++ [.toolResults rs]) (rounds + 1)

/-- `runWorkerTask`: send the task description, then run the bounded tool
loop. -/
def runWorkerTask (w : Nat) (task : String) (respond : Nat → ApiResponse)
    (s : ControllerState) : WorkerRunResult :=
  runWorkerLoop w respond WORKER_MAX_ITERATIONS 0 s [.message task] 0

/-! ### Orchestrator dispatch (`executeOrchestratorToolCalls`) -/

/-- JavaScript `hay.includes(sub)` on characters: `sub` occurs as a prefix
of some suffix. -/
def charsPrefixOf : List Char → List Char → Bool
  | [], _ => true
  | _ :: _, [] => false
  | a :: as, b :: bs => a = b && charsPrefixOf as bs

/-- JavaScript `hay.includes(sub)` (substring containment). -/
def charsIncl (sub : List Char) : List Char → Bool
  | [] => charsPrefixOf sub []
  | c :: t => charsPrefixOf sub (c :: t) || charsIncl sub t

/-- JavaScript `s.includes(sub)`. -/
def strIncludes (s sub : String) : Bool := charsIncl sub.data s.data

/-- The failure test `executeOrchestratorToolCalls` applies to a worker's
terminal report: it contains `"problem"` or `"error"`. -/
def failureLanguage (r : String) : Bool := strIncludes r "problem" || strIncludes r "error"

/-- The orchestrator tools of the `executeOrchestratorToolCalls` switch. -/
inductive OrchTool where
  | planManufacturing (summary : String) (stepCount estimatedSegments : Nat)
  | dispatchWorkerTask (workerId : Nat) (taskDescription : String) (relatedStepId : String)
  | getFactoryStatus
  | reportManufacturingComplete (summary : String)
  | unknownTool (name : String)
deriving DecidableEq, Repr

/-- The wire name of an orchestrator tool. -/
def orchToolName : OrchTool → String
  | .planManufacturing _ _ _ => "planManufacturing"
  | .dispatchWorkerTask _ _ _ => "dispatchWorkerTask"
  | .getFactoryStatus => "getFactoryStatus"
  | .reportManufacturingComplete _ => "reportManufacturingComplete"
  | .unknownTool n => n

/-- Update the first step whose `id` matches (the `updated.find` mutation
in the source touches only the first match). -/
def markFirst (f : ManufacturingStep → ManufacturingStep) (stepId : String) :
    List ManufacturingStep → List ManufacturingStep
  | [] => []
  | st :: rest => if st.id = stepId then f st :: rest else st :: markFirst f stepId rest

/-- Placeholder for `JSON.stringify(factory.getState(), null, 2)`
(presentational). -/
def factoryStatusText (steps : List ManufacturingStep) (s : ControllerState) : String :=
  "factory status: " ++ toString steps.length ++ " steps, " ++ toString s.workers.length ++
    " workers"

/-- `executeOrchestratorToolCalls`: resolve a batch of orchestrator calls
sequentially; a `dispatchWorkerTask` call marks the referenced step
`in_progress` for the given worker, synchronously runs the nested worker
session (the `d`-th dispatch consuming the reasoning stream `streams d`),
then marks the step `failed` when the worker's report contains failure
language and `completed` otherwise. Returns the tool results and the final
step list and controller state. -/
def executeOrchestratorToolCalls (streams : Nat → Nat → ApiResponse) :
    List OrchTool → Nat → List ManufacturingStep → ControllerState →
      List (String × String) × List ManufacturingStep × ControllerState
  | [], _, steps, s => ([], steps, s)
  | call :: rest, d, steps, s =>
    match call with
    | .planManufacturing summary stepCount estimatedSegments =>
      let r := "Plan acknowledged: " ++ summary ++ ". " ++ toString stepCount ++ " steps, " ++
        toString estimatedSegments ++ " segments."
      let out := executeOrchestratorToolCalls streams rest d steps s
      (("planManufacturing", r) :: out.1, out.2)
    | .dispatchWorkerTask workerId taskDescription relatedStepId =>
      let steps1 := markFirst
        (fun st => { st with status := .in_progress, workerId := some workerId })
        relatedStepId steps
      let wr := runWorkerTask workerId taskDescription (streams d) s
      let steps2 := markFirst
        (fun st => { st with status := if failureLanguage wr.result then .failed else .completed })
        relatedStepId steps1
      let r := "Worker " ++ toString workerId ++ " finished: " ++ wr.result
      let out := executeOrchestratorToolCalls streams rest (d + 1) steps2 wr.state
      (("dispatchWorkerTask", r) :: out.1, out.2)
    | .getFactoryStatus =>
      let out := executeOrchestratorToolCalls streams rest d steps s
      (("getFactoryStatus", factoryStatusText steps s) :: out.1, out.2)
    | .reportManufacturingComplete summary =>
      let out := executeOrchestratorToolCalls streams rest d steps s
      (("reportManufacturingComplete", "Manufacturing complete: " ++ summary) :: out.1, out.2)
    | .unknownTool n =>
      let out := executeOrchestratorToolCalls streams rest d steps s
      ((n, "Unknown tool: " ++ n) :: out.1, out.2)

/-- The literal continuation message `handleOrchestratorResponse` sends
after an orchestrator-side rate-limit wait. -/
def orchestratorRetryMessage : String := "Please continue coordinating the manufacturing."

/-! ### Concrete instances used in witnesses and counterexamples -/

/-- The §8 scenario spec: 10 m pipe, 1 m diameter, no declared segments. -/
def specScenario : PipeSpec := { totalLength := 10, initialDiameter := 1, segments := [] }

/-- A frustrum segment narrowing to 0.8 m. -/
def segFrustrum08 : PipeSegment :=
  { type := .frustrum, height := 4/5, bottomDiameter := some (4/5) }

/-- A spec with a single declared frustrum followed by auto-filled
cylinders. -/
def specFrustrum : PipeSpec :=
  { totalLength := 10, initialDiameter := 1, segments := [segFrustrum08] }

/-- A frustrum segment declaring a falsy (zero) bottom diameter. -/
def segZeroBD : PipeSegment :=
  { type := .frustrum, height := 1/2, bottomDiameter := some 0 }

/-- A spec whose only declared segment is `segZeroBD`. -/
def specZeroBD : PipeSpec :=
  { totalLength := 3, initialDiameter := 1, segments := [segZeroBD] }

/-- A reasoning service that always answers with a final text report. -/
def alwaysText : Nat → ApiResponse := fun _ => .text "All four segments are welded"

/-- A reasoning service that always answers with one non-terminal tool
call. -/
def alwaysWalk : Nat → ApiResponse := fun _ => .toolCalls [.walkToMachine .cutter]

/-- A reasoning service that is rate-limited on the first request and
completes on the second. -/
def rateLimitedOnce : Nat → ApiResponse := fun n =>
  if n = 0 then .error "429 rate limit" (some 30000) else .text "Seam welded"

/-- Worker reasoning streams for every dispatch: immediately report a
plain text result. -/
def streamsTextDone : Nat → Nat → ApiResponse := fun _ _ => .text "Segment finished"

/-- Six fetch-store cycles followed by one more fetch: overflows the
5-slot rack on the sixth store. -/
def overflowOps : List FactoryOp :=
  [.fetchSheet 0, .storeInRack 0, .fetchSheet 0, .storeInRack 0, .fetchSheet 0, .storeInRack 0,
   .fetchSheet 0, .storeInRack 0, .fetchSheet 0, .storeInRack 0, .fetchSheet 0, .storeInRack 0,
   .fetchSheet 0]

/-- A pending manufacturing step used in the dispatch witness. -/
def stepW : ManufacturingStep :=
  { id := "step-1", machineId := .sheetStock, action := .fetch_sheet, params := []
    segmentIndex := 0, status := .pending }

/-- The inductive invariant behind the single-live-workpiece property:
existing meshes are distinct and below the id counter, every existing mesh
not committed to the rack is the current live workpiece, and the live
workpiece (if any) is an existing mesh. -/
def GoodState (s : ControllerState) : Prop :=
  s.existing.Nodup ∧
  (∀ m ∈ s.existing, m < s.nextMeshId) ∧
  (∀ m ∈ s.existing, m ∉ s.storedPipes → s.workpiece = some m) ∧
  (∀ m, s.workpiece = some m → m ∈ s.existing)

/-! ## Lemmas about the auto-fill loop -/

lemma heightSum_foldl (l : List PipeSegment) (a : ℚ) :
    l.foldl (fun sum s => sum + s.height) a = a + heightSum l := by
  induction l generalizing a with
  | nil => simp [heightSum]
  | cons s t ih =>
    simp only [heightSum, List.foldl_cons]
    rw [ih, ih (0 + s.height)]
    ring

lemma heightSum_cons (s : PipeSegment) (l : List PipeSegment) :
    heightSum (s :: l) = s.height + heightSum l := by
  rw [show heightSum (s :: l) = l.foldl (fun sum s => sum + s.height) (0 + s.height) from rfl,
    heightSum_foldl]
  ring

lemma heightSum_append (l₁ l₂ : List PipeSegment) :
    heightSum (l₁ ++ l₂) = heightSum l₁ + heightSum l₂ := by
  simp only [heightSum, List.foldl_append]
  rw [heightSum_foldl]
  rfl

lemma heightSum_nil : heightSum [] = 0 := rfl

lemma one_le_minQ {left : ℚ} (h : CONSTRAINTS.minSegmentHeight ≤ left) :
    CONSTRAINTS.minSegmentHeight ≤ minQ left CONSTRAINTS.rollerHeightMax := by
  unfold minQ
  split
  · exact h
  · norm_num [CONSTRAINTS]

lemma ceil_drop {left : ℚ} (h : CONSTRAINTS.minSegmentHeight ≤ left) :
    Nat.ceil (left - minQ left CONSTRAINTS.rollerHeightMax) ≤ Nat.ceil left - 1 := by
  have h1 : (1 : ℚ) ≤ left := by simpa [CONSTRAINTS] using h
  have hmin : (1 : ℚ) ≤ minQ left CONSTRAINTS.rollerHeightMax := by
    simpa [CONSTRAINTS] using one_le_minQ h
  have hc : 1 ≤ Nat.ceil left := by
    rw [Nat.one_le_iff_ne_zero]
    intro h0
    have := (Nat.ceil_eq_zero).mp h0
    linarith
  rw [Nat.ceil_le]
  push_cast [hc]
  have := Nat.le_ceil left
  linarith

lemma fillAux_ext : ∀ (n m : Nat) (dia left : ℚ), Nat.ceil left ≤ n → Nat.ceil left ≤ m →
    fillAux n dia left = fillAux m dia left := by
  intro n
  induction n with
  | zero =>
    intro m dia left hn _
    have hle : left ≤ 0 := Nat.ceil_eq_zero.mp (Nat.le_zero.mp hn)
    have hguard : ¬ CONSTRAINTS.minSegmentHeight ≤ left := by
      simp only [CONSTRAINTS]
      intro hcon
      linarith
    cases m with
    | zero => rfl
    | succ m => simp [fillAux, hguard]
  | succ n ih =>
    intro m dia left hn hm
    by_cases hguard : CONSTRAINTS.minSegmentHeight ≤ left
    · have h1 : (1 : ℚ) ≤ left := by simpa [CONSTRAINTS] using hguard
      have hc : 1 ≤ Nat.ceil left := by
        rw [Nat.one_le_iff_ne_zero]
        intro h0
        have := Nat.ceil_eq_zero.mp h0
        linarith
      cases m with
      | zero => omega
      | succ m =>
        simp only [fillAux, if_pos hguard]
        have hdrop := ceil_drop hguard
        have ihn : Nat.ceil (left - minQ left CONSTRAINTS.rollerHeightMax) ≤ n := by omega
        have ihm : Nat.ceil (left - minQ left CONSTRAINTS.rollerHeightMax) ≤ m := by omega
        rw [ih m dia _ ihn ihm]
    · cases m with
      | zero =>
        simp [fillAux, hguard]
      | succ m => simp [fillAux, hguard]

lemma fillSegments_eq (dia left : ℚ) :
    fillSegments dia left =
      if CONSTRAINTS.minSegmentHeight ≤ left then
        fillCylinder dia left :: fillSegments dia (left - minQ left CONSTRAINTS.rollerHeightMax)
      else [] := by
  unfold fillSegments
  by_cases hguard : CONSTRAINTS.minSegmentHeight ≤ left
  · have h1 : (1 : ℚ) ≤ left := by simpa [CONSTRAINTS] using hguard
    have hc : 1 ≤ Nat.ceil left := by
      rw [Nat.one_le_iff_ne_zero]
      intro h0
      have := Nat.ceil_eq_zero.mp h0
      linarith
    obtain ⟨k, hk⟩ : ∃ k, Nat.ceil left = k + 1 := ⟨Nat.ceil left - 1, by omega⟩
    rw [hk]
    simp only [fillAux, if_pos hguard, if_pos hguard]
    have hdrop := ceil_drop hguard
    rw [fillAux_ext k (Nat.ceil (left - minQ left CONSTRAINTS.rollerHeightMax)) dia _ (by omega)
      (le_refl _)]
  · rw [if_neg hguard]
    cases hcc : Nat.ceil left with
    | zero => rfl
    | succ k => simp [fillAux, hguard]

lemma fillAux_mem : ∀ (n : Nat) (dia left : ℚ) (seg : PipeSegment), seg ∈ fillAux n dia left →
    seg.type = SegType.cylinder ∧ seg.diameter = some dia ∧ seg.bottomDiameter = none := by
  intro n
  induction n with
  | zero => intro dia left seg h; simp [fillAux] at h
  | succ n ih =>
    intro dia left seg h
    simp only [fillAux] at h
    split at h
    · rcases List.mem_cons.mp h with h | h
      · subst h
        exact ⟨rfl, rfl, rfl⟩
      · exact ih _ _ _ h
    · simp at h

lemma fillAux_remainder : ∀ (n : Nat) (dia left : ℚ), Nat.ceil left ≤ n →
    left - heightSum (fillAux n dia left) < CONSTRAINTS.minSegmentHeight := by
  intro n
  induction n with
  | zero =>
    intro dia left hn
    have hle : left ≤ 0 := Nat.ceil_eq_zero.mp (Nat.le_zero.mp hn)
    simp only [fillAux, heightSum_nil, CONSTRAINTS]
    linarith
  | succ n ih =>
    intro dia left hn
    by_cases hguard : CONSTRAINTS.minSegmentHeight ≤ left
    · simp only [fillAux, if_pos hguard]
      rw [heightSum_cons]
      have hdrop := ceil_drop hguard
      have := ih dia (left - minQ left CONSTRAINTS.rollerHeightMax) (by omega)
      simp only [fillCylinder]
      linarith
    · simp only [fillAux, if_neg hguard, heightSum_nil]
      simp only [CONSTRAINTS] at hguard ⊢
      linarith

lemma fillAux_get? : ∀ (n : Nat) (dia left : ℚ), Nat.ceil left ≤ n →
    ∀ (i : Nat) (seg : PipeSegment), (fillAux n dia left).get? i = some seg →
      seg.height =
        minQ (left - heightSum ((fillAux n dia left).take i)) CONSTRAINTS.rollerHeightMax := by
  intro n
  induction n with
  | zero => intro dia left _ i seg h; simp [fillAux] at h
  | succ n ih =>
    intro dia left hn i seg h
    by_cases hguard : CONSTRAINTS.minSegmentHeight ≤ left
    · simp only [fillAux, if_pos hguard] at h ⊢
      cases i with
      | zero =>
        simp only [List.get?] at h
        injection h with h
        subst h
        simp [fillCylinder, heightSum_nil]
      | succ i =>
        simp only [List.get?] at h
        have hdrop := ceil_drop hguard
        have := ih dia (left - minQ left CONSTRAINTS.rollerHeightMax) (by omega) i seg h
        rw [this]
        simp only [List.take, heightSum_cons, fillCylinder]
        congr 1
        ring
    · simp only [fillAux, if_neg hguard] at h
      simp at h

lemma autoFill_fill (spec : PipeSpec) (hlen : spec.segments.length > 0)
    (hrem : CONSTRAINTS.minSegmentHeight ≤ spec.totalLength - heightSum spec.segments) :
    autoFillSegments spec =
      spec.segments ++
        fillSegments (autoFillDia spec) (spec.totalLength - heightSum spec.segments) := by
  unfold autoFillSegments
  rw [if_pos hlen, if_pos hrem]

lemma autoFill_nofill (spec : PipeSpec) (hlen : spec.segments.length > 0)
    (hrem : ¬ CONSTRAINTS.minSegmentHeight ≤ spec.totalLength - heightSum spec.segments) :
    autoFillSegments spec = spec.segments := by
  unfold autoFillSegments
  rw [if_pos hlen, if_neg hrem]

lemma autoFill_empty (spec : PipeSpec) (hlen : ¬ spec.segments.length > 0) :
    autoFillSegments spec = fillSegments spec.initialDiameter spec.totalLength := by
  unfold autoFillSegments
  rw [if_neg hlen]

/-! ## C6 — auto-fill exhaustiveness -/

/-- C6: for every totalLength within the valid bounds (and
minSegmentHeight ≤ rollerHeightMax, which holds of `CONSTRAINTS`),
auto-fill terminates (it is a total function here) with an unconsumed
remainder strictly below `minSegmentHeight`, and every appended segment is
a cylinder of height `min(remaining, rollerHeightMax)` where `remaining`
is what was left just before appending it. -/
theorem autoFill_exhaustive (spec : PipeSpec)
    (hbounds : CONSTRAINTS.minTotalLength ≤ spec.totalLength ∧
      spec.totalLength ≤ CONSTRAINTS.maxTotalLength) :
    CONSTRAINTS.minSegmentHeight ≤ CONSTRAINTS.rollerHeightMax ∧
    spec.totalLength - heightSum (autoFillSegments spec) < CONSTRAINTS.minSegmentHeight ∧
    (∀ (i : Nat) (seg : PipeSegment),
      ((autoFillSegments spec).drop spec.segments.length).get? i = some seg →
        seg.type = SegType.cylinder ∧
        seg.height =
          minQ
            (spec.totalLength - heightSum spec.segments -
              heightSum (((autoFillSegments spec).drop spec.segments.length).take i))
            CONSTRAINTS.rollerHeightMax) := by
  refine ⟨by norm_num [CONSTRAINTS], ?_, ?_⟩
  · by_cases hlen : spec.segments.length > 0
    · by_cases hrem :
        CONSTRAINTS.minSegmentHeight ≤ spec.totalLength - heightSum spec.segments
      · rw [autoFill_fill spec hlen hrem, heightSum_append]
        have hrest := fillAux_remainder
          (Nat.ceil (spec.totalLength - heightSum spec.segments)) (autoFillDia spec)
          (spec.totalLength - heightSum spec.segments) (le_refl _)
        unfold fillSegments
        linarith
      · rw [autoFill_nofill spec hlen hrem]
        simp only [CONSTRAINTS] at hrem ⊢
        linarith
    · rw [autoFill_empty spec hlen]
      unfold fillSegments
      exact fillAux_remainder _ _ _ (le_refl _)
  · intro i seg hget
    by_cases hlen : spec.segments.length > 0
    · by_cases hrem :
        CONSTRAINTS.minSegmentHeight ≤ spec.totalLength - heightSum spec.segments
      · rw [autoFill_fill spec hlen hrem, List.drop_left] at hget ⊢
        constructor
        · exact (fillAux_mem _ _ _ _ (List.get?_mem hget)).1
        · unfold fillSegments at hget ⊢
          exact fillAux_get? _ _ _ (le_refl _) i seg hget
      · rw [autoFill_nofill spec hlen hrem, List.drop_length] at hget
        simp at hget
    · have hlen0 : spec.segments.length = 0 := by omega
      have hnil : spec.segments = [] := List.length_eq_zero.mp hlen0
      rw [autoFill_empty spec hlen, hlen0, List.drop_zero] at hget ⊢
      rw [hnil, heightSum_nil, sub_zero]
      constructor
      · exact (fillAux_mem _ _ _ _ (List.get?_mem hget)).1
      · unfold fillSegments at hget ⊢
        exact fillAux_get? _ _ _ (le_refl _) i seg hget

/-- C6 instantiated at the §8 scenario spec (10 m, no declared segments):
bounds hold and the two auto-filled segments are 5 m cylinders. -/
theorem autoFill_exhaustive_witness :
    (CONSTRAINTS.minTotalLength ≤ specScenario.totalLength ∧
      specScenario.totalLength ≤ CONSTRAINTS.maxTotalLength) ∧
    (CONSTRAINTS.minSegmentHeight ≤ CONSTRAINTS.rollerHeightMax ∧
      specScenario.totalLength - heightSum (autoFillSegments specScenario) <
        CONSTRAINTS.minSegmentHeight ∧
      (∀ (i : Nat) (seg : PipeSegment),
        ((autoFillSegments specScenario).drop specScenario.segments.length).get? i = some seg →
          seg.type = SegType.cylinder ∧
          seg.height =
            minQ
              (specScenario.totalLength - heightSum specScenario.segments -
                heightSum
                  (((autoFillSegments specScenario).drop specScenario.segments.length).take i))
              CONSTRAINTS.rollerHeightMax)) :=
  ⟨⟨by norm_num [specScenario, CONSTRAINTS], by norm_num [specScenario, CONSTRAINTS]⟩,
    autoFill_exhaustive specScenario
      ⟨by norm_num [specScenario, CONSTRAINTS], by norm_num [specScenario, CONSTRAINTS]⟩⟩

/-! ## C5 — frustrum bottom diameter threads into auto-filled cylinders -/

/-- C5: for a spec whose declared segments are a single frustrum with
`bottomDiameter = 0.8`, every auto-filled segment appended after it is a
cylinder carrying diameter 0.8 (the frustrum's bottom diameter), not the
spec's `initialDiameter`. -/
theorem autoFill_frustrum_diameter (spec : PipeSpec) (s : PipeSegment)
    (hseg : spec.segments = [s]) (hty : s.type = SegType.frustrum)
    (hbd : s.bottomDiameter = some (4/5)) :
    ∀ seg ∈ (autoFillSegments spec).drop 1,
      seg.type = SegType.cylinder ∧ seg.diameter = some (4/5) := by
  intro seg hmem
  have hdia : autoFillDia spec = 4/5 := by
    unfold autoFillDia
    rw [hseg]
    simp [hty, hbd, truthy, jsOr]
  have hlen : spec.segments.length > 0 := by rw [hseg]; simp
  by_cases hrem : CONSTRAINTS.minSegmentHeight ≤ spec.totalLength - heightSum spec.segments
  · rw [autoFill_fill spec hlen hrem, hseg, hdia] at hmem
    simp only [List.cons_append, List.nil_append, List.drop_succ_cons, List.drop_zero] at hmem
    have := fillAux_mem _ _ _ _ hmem
    exact ⟨this.1, this.2.1⟩
  · rw [autoFill_nofill spec hlen hrem, hseg] at hmem
    simp at hmem

/-- C5 instantiated: one declared frustrum narrowing to 0.8 on a 10 m
pipe; the two appended cylinders both carry diameter 0.8. -/
theorem autoFill_frustrum_diameter_witness :
    (specFrustrum.segments = [segFrustrum08] ∧ segFrustrum08.type = SegType.frustrum ∧
      segFrustrum08.bottomDiameter = some (4/5)) ∧
    (∀ seg ∈ (autoFillSegments specFrustrum).drop 1,
      seg.type = SegType.cylinder ∧ seg.diameter = some (4/5)) :=
  ⟨⟨rfl, rfl, rfl⟩, autoFill_frustrum_diameter specFrustrum segFrustrum08 rfl rfl rfl⟩

/-! ## C1 — decomposition step count -/

lemma breakdownLoop_length (pi : ℚ) (sq : ℚ → ℚ) :
    ∀ (segs : List PipeSegment) (i c : Nat) (rd : ℚ),
      (breakdownLoop pi sq segs i c rd).length = 4 * segs.length := by
  intro segs
  induction segs with
  | nil => intro i c rd; rfl
  | cons seg rest ih =>
    intro i c rd
    cases hty : seg.type <;>
      simp only [breakdownLoop, hty, List.length_append, cylinderSteps, frustrumSteps,
        List.length_cons, List.length_nil, ih, List.length] <;>
      omega

lemma joinSteps_length (n : Nat) : (joinSteps n).length = n - 1 := by
  simp [joinSteps]

/-- C1: with `S` the number of segments auto-fill resolves, decomposition
yields `4*S + (S-1)` steps for `S > 1`, exactly 4 for `S = 1`, and 0 for
`S = 0` (four per-segment steps plus `S-1` weld-join steps). -/
theorem decompose_step_count (pi : ℚ) (sq : ℚ → ℚ) (spec : PipeSpec) (S : Nat)
    (hS : (autoFillSegments spec).length = S) :
    (breakdownPipeSpec pi sq spec).length =
      if S = 0 then 0 else if S = 1 then 4 else 4 * S + (S - 1) := by
  unfold breakdownPipeSpec
  rw [List.length_append, breakdownLoop_length, hS, apply_ite List.length, joinSteps_length,
    List.length_nil]
  split_ifs <;> omega

/-- C1 instantiated at the §8 scenario spec: two resolved segments, nine
steps. -/
theorem decompose_step_count_witness :
    (autoFillSegments specScenario).length = 2 ∧
    (breakdownPipeSpec 3 (fun x => x) specScenario).length =
      (if 2 = 0 then 0 else if 2 = 1 then 4 else 4 * 2 + (2 - 1)) :=
  ⟨by with_unfolding_all rfl,
    decompose_step_count 3 (fun x => x) specScenario 2 (by with_unfolding_all rfl)⟩

/-! ## C2 — double pick-up -/

lemma attachWorkpieceToWorker_workpiece (s : ControllerState) (w : Nat) :
    (attachWorkpieceToWorker s w).workpiece = s.workpiece := by
  unfold attachWorkpieceToWorker
  cases hwp : s.workpiece with
  | none => exact hwp
  | some m0 =>
    split
    · exact hwp
    · split
      · rfl
      · exact hwp

/-- C2 counterexample: starting from a fresh controller, `fetchSheet`
leaves worker 0 carrying mesh 0; a pick-up with no intervening placement
(a second pick-up in a row) nevertheless returns the ordinary success
string — not an error — while the live workpiece reference is indeed
unchanged. `"Worker not found"` is the only error string `pickUpFrom` can
return. -/
theorem pickUpFrom_second_call_counterexample :
    (fetchSheet initController 0).2.workers.get? 0 = some { carriedMesh := some 0 } ∧
    (pickUpFrom (fetchSheet initController 0).2 0 MachineId.cutter).1 =
      "Picked up workpiece from cutter" ∧
    (pickUpFrom (fetchSheet initController 0).2 0 MachineId.cutter).1 ≠ "Worker not found" ∧
    (pickUpFrom (fetchSheet initController 0).2 0 MachineId.cutter).2.workpiece =
      (fetchSheet initController 0).2.workpiece :=
  ⟨by with_unfolding_all rfl, by with_unfolding_all rfl, by decide, by with_unfolding_all rfl⟩

/-- C2 amended: `pickUpFrom` performs no single-carry check; for any
existing worker — already carrying or not — it returns the success string
and leaves the live workpiece reference unchanged. -/
theorem pickUpFrom_succeeds_preserving_ref (s : ControllerState) (w : Nat) (m : MachineId)
    (h : w < s.workers.length) :
    (pickUpFrom s w m).1 = "Picked up workpiece from " ++ machineName m ∧
    (pickUpFrom s w m).2.workpiece = s.workpiece := by
  unfold pickUpFrom
  rw [if_pos h]
  exact ⟨rfl, attachWorkpieceToWorker_workpiece s w⟩

/-- C2 amended-claim witness: the second pick-up of the counterexample
state. -/
theorem pickUpFrom_succeeds_preserving_ref_witness :
    0 < (fetchSheet initController 0).2.workers.length ∧
    ((pickUpFrom (fetchSheet initController 0).2 0 MachineId.cutter).1 =
        "Picked up workpiece from " ++ machineName MachineId.cutter ∧
      (pickUpFrom (fetchSheet initController 0).2 0 MachineId.cutter).2.workpiece =
        (fetchSheet initController 0).2.workpiece) :=
  ⟨by decide,
    pickUpFrom_succeeds_preserving_ref (fetchSheet initController 0).2 0 MachineId.cutter
      (by decide)⟩

/-! ## C7 — operating roller or press without configuring -/

lemma geomGet_geomSet (s : ControllerState) (m : Nat) (g : Geometry) :
    geomGet (geomSet s m g) m = some g := by
  unfold geomGet geomSet
  simp [List.find?]

/-- C7 counterexample: with a fresh controller whose roller was never
configured, operating the roller succeeds with the success string and
forms the workpiece using the default parameters
(diameter 1 → radius 1/2, height 3 → display height 3/2) instead of
returning an error and doing nothing. -/
theorem operate_unconfigured_counterexample :
    (operateMachineWithWorker (fetchSheet initController 0).2 2 MachineId.roller).1 =
      "roller operation completed successfully" ∧
    geomGet (operateMachineWithWorker (fetchSheet initController 0).2 2 MachineId.roller).2 0 =
      some (Geometry.cylinder (1/2) (1/2) (3/2) true) :=
  ⟨by with_unfolding_all rfl, by with_unfolding_all rfl⟩

/-- C7 amended: `operateMachineWithWorker` on roller or press never checks
whether `setRollerParams` / `setPressParams` was called for the current
job: for any existing worker it reports success, and when a live workpiece
is present it performs the forming operation with whatever parameters are
currently stored (the defaults, if never configured). -/
theorem operate_succeeds_without_configure (s : ControllerState) (w : Nat) (m : MachineId)
    (hm : m = MachineId.roller ∨ m = MachineId.press) (hw : w < s.workers.length) :
    (operateMachineWithWorker s w m).1 = machineName m ++ " operation completed successfully" ∧
    (∀ mm, s.workpiece = some mm → m = MachineId.roller →
      geomGet (operateMachineWithWorker s w m).2 mm =
        some (Geometry.cylinder (s.params.roller.diameter / 2) (s.params.roller.diameter / 2)
          (minQ (s.params.roller.height * (1/2)) (3/2)) true)) ∧
    (∀ mm, s.workpiece = some mm → m = MachineId.press →
      geomGet (operateMachineWithWorker s w m).2 mm =
        some (Geometry.cylinder s.params.press.topRadius s.params.press.bottomRadius
          (minQ (s.params.press.frustrumHeight * (1/2)) (3/2)) false)) := by
  rcases hm with hm | hm <;> subst hm
  · unfold operateMachineWithWorker
    rw [if_pos hw]
    refine ⟨rfl, ?_, ?_⟩
    · intro mm hmm _
      rw [hmm]
      exact geomGet_geomSet _ _ _
    · intro mm _ hcon
      exact absurd hcon (by decide)
  · unfold operateMachineWithWorker
    rw [if_pos hw]
    refine ⟨rfl, ?_, ?_⟩
    · intro mm _ hcon
      exact absurd hcon (by decide)
    · intro mm hmm _
      rw [hmm]
      exact geomGet_geomSet _ _ _

/-- C7 amended-claim witness: worker 2 operates the never-configured
roller of the counterexample state. -/
theorem operate_succeeds_without_configure_witness :
    ((MachineId.roller = MachineId.roller ∨ MachineId.roller = MachineId.press) ∧
      2 < (fetchSheet initController 0).2.workers.length) ∧
    ((operateMachineWithWorker (fetchSheet initController 0).2 2 MachineId.roller).1 =
        machineName MachineId.roller ++ " operation completed successfully" ∧
      (∀ mm, (fetchSheet initController 0).2.workpiece = some mm →
        MachineId.roller = MachineId.roller →
        geomGet (operateMachineWithWorker (fetchSheet initController 0).2 2 MachineId.roller).2
            mm =
          some (Geometry.cylinder ((fetchSheet initController 0).2.params.roller.diameter / 2)
            ((fetchSheet initController 0).2.params.roller.diameter / 2)
            (minQ ((fetchSheet initController 0).2.params.roller.height * (1/2)) (3/2)) true)) ∧
      (∀ mm, (fetchSheet initController 0).2.workpiece = some mm →
        MachineId.roller = MachineId.press →
        geomGet (operateMachineWithWorker (fetchSheet initController 0).2 2 MachineId.roller).2
            mm =
          some (Geometry.cylinder (fetchSheet initController 0).2.params.press.topRadius
            (fetchSheet initController 0).2.params.press.bottomRadius
            (minQ ((fetchSheet initController 0).2.params.press.frustrumHeight * (1/2)) (3/2))
            false))) :=
  ⟨⟨Or.inl rfl, by decide⟩,
    operate_succeeds_without_configure (fetchSheet initController 0).2 2 MachineId.roller
      (Or.inl rfl) (by decide)⟩

/-! ## C9 — single live workpiece -/

lemma nodup_length_le_one {l : List Nat} {a : Nat} (hnd : l.Nodup) (hall : ∀ x ∈ l, x = a) :
    l.length ≤ 1 := by
  cases l with
  | nil => simp
  | cons x t =>
    cases t with
    | nil => simp
    | cons y u =>
      exfalso
      have hx : x = a := hall x (by simp)
      have hy : y = a := hall y (by simp)
      have : x ≠ y := by
        intro hxy
        exact (List.nodup_cons.mp hnd).1 (hxy ▸ List.mem_cons_self y u)
      exact this (hx.trans hy.symm)

lemma good_liveUncommitted {s : ControllerState} (hs : GoodState s) :
    (liveUncommitted s).length ≤ 1 := by
  obtain ⟨hnd, _, huncommitted, _⟩ := hs
  cases hwp : s.workpiece with
  | some a =>
    refine nodup_length_le_one (a := a) (hnd.filter _) ?_
    intro x hx
    obtain ⟨hxe, hxp⟩ := List.mem_filter.mp hx
    have hxs : x ∉ s.storedPipes := by simpa using hxp
    have := huncommitted x hxe hxs
    rw [hwp] at this
    exact (Option.some.injEq _ _).mp this.symm
  | none =>
    have : liveUncommitted s = [] := by
      rw [List.eq_nil_iff_forall_not_mem]
      intro x hx
      obtain ⟨hxe, hxp⟩ := List.mem_filter.mp hx
      have hxs : x ∉ s.storedPipes := by simpa using hxp
      have := huncommitted x hxe hxs
      rw [hwp] at this
      exact Option.noConfusion this
    simp [this]

/-- The controller fields the single-live-workpiece invariant depends on. -/
def coreFields (t s : ControllerState) : Prop :=
  t.workpiece = s.workpiece ∧ t.nextMeshId = s.nextMeshId ∧ t.existing = s.existing ∧
    t.storedPipes = s.storedPipes ∧ t.nextCradleIndex = s.nextCradleIndex

lemma good_of_coreFields {t s : ControllerState} (h : coreFields t s) (hs : GoodState s) :
    GoodState t := by
  obtain ⟨h1, h2, h3, h4, h5⟩ := h
  unfold GoodState at hs ⊢
  rw [h1, h2, h3, h4]
  exact hs

lemma coreFields_attach (s : ControllerState) (w : Nat) :
    coreFields (attachWorkpieceToWorker s w) s := by
  unfold attachWorkpieceToWorker coreFields
  split
  · exact ⟨rfl, rfl, rfl, rfl, rfl⟩
  · split
    · exact ⟨rfl, rfl, rfl, rfl, rfl⟩
    · exact ⟨rfl, rfl, rfl, rfl, rfl⟩

lemma coreFields_detach (s : ControllerState) (w : Nat) :
    coreFields (detachWorkpieceFromWorker s w) s := by
  unfold detachWorkpieceFromWorker coreFields
  split
  · exact ⟨rfl, rfl, rfl, rfl, rfl⟩
  · split
    · exact ⟨rfl, rfl, rfl, rfl, rfl⟩
    · exact ⟨rfl, rfl, rfl, rfl, rfl⟩

lemma coreFields_operate (s : ControllerState) (w : Nat) (m : MachineId) :
    coreFields (operateMachineWithWorker s w m).2 s := by
  unfold operateMachineWithWorker geomSet
  split
  · cases m <;> dsimp only <;> (try split) <;> (try split) <;> exact ⟨rfl, rfl, rfl, rfl, rfl⟩
  · exact ⟨rfl, rfl, rfl, rfl, rfl⟩

lemma createNewWorkpiece_eq_none {s : ControllerState} (hwp : s.workpiece = none) :
    createNewWorkpiece s =
      { s with workpiece := some s.nextMeshId
               existing := s.nextMeshId :: s.existing
               geom := (s.nextMeshId, Geometry.box (9/5) (1/25) (6/5)) :: s.geom
               nextMeshId := s.nextMeshId + 1 } := by
  unfold createNewWorkpiece disposeWorkpiece
  rw [hwp]

lemma createNewWorkpiece_eq_some {s : ControllerState} {m0 : Nat}
    (hwp : s.workpiece = some m0) :
    createNewWorkpiece s =
      { s with workpiece := some s.nextMeshId
               existing := s.nextMeshId :: s.existing.erase m0
               geom := (s.nextMeshId, Geometry.box (9/5) (1/25) (6/5)) ::
                 s.geom.filter (fun p => p.1 ≠ m0)
               nextMeshId := s.nextMeshId + 1 } := by
  unfold createNewWorkpiece disposeWorkpiece
  rw [hwp]

lemma createNewWorkpiece_fields_none {s : ControllerState} (hwp : s.workpiece = none) :
    (createNewWorkpiece s).workpiece = some s.nextMeshId ∧
    (createNewWorkpiece s).existing = s.nextMeshId :: s.existing ∧
    (createNewWorkpiece s).nextMeshId = s.nextMeshId + 1 ∧
    (createNewWorkpiece s).storedPipes = s.storedPipes ∧
    (createNewWorkpiece s).nextCradleIndex = s.nextCradleIndex := by
  rw [createNewWorkpiece_eq_none hwp]
  exact ⟨rfl, rfl, rfl, rfl, rfl⟩

lemma createNewWorkpiece_fields_some {s : ControllerState} {m0 : Nat}
    (hwp : s.workpiece = some m0) :
    (createNewWorkpiece s).workpiece = some s.nextMeshId ∧
    (createNewWorkpiece s).existing = s.nextMeshId :: s.existing.erase m0 ∧
    (createNewWorkpiece s).nextMeshId = s.nextMeshId + 1 ∧
    (createNewWorkpiece s).storedPipes = s.storedPipes ∧
    (createNewWorkpiece s).nextCradleIndex = s.nextCradleIndex := by
  rw [createNewWorkpiece_eq_some hwp]
  exact ⟨rfl, rfl, rfl, rfl, rfl⟩

lemma good_createNewWorkpiece {s : ControllerState} (hs : GoodState s) :
    GoodState (createNewWorkpiece s) ∧
    (createNewWorkpiece s).storedPipes = s.storedPipes ∧
    (createNewWorkpiece s).nextCradleIndex = s.nextCradleIndex := by
  obtain ⟨hnd, hfresh, huncommitted, _⟩ := hs
  cases hwp : s.workpiece with
  | none =>
    obtain ⟨hw, he, hn, hsp, hci⟩ := createNewWorkpiece_fields_none hwp
    refine ⟨⟨?_, ?_, ?_, ?_⟩, hsp, hci⟩
    · rw [he]
      exact List.nodup_cons.mpr ⟨fun hmem => absurd rfl (Nat.ne_of_lt (hfresh _ hmem)).symm, hnd⟩
    · intro m hm
      rw [he] at hm
      rw [hn]
      rcases List.mem_cons.mp hm with hm | hm
      · omega
      · have := hfresh m hm
        omega
    · intro m hm hnst
      rw [he] at hm
      rw [hsp] at hnst
      rw [hw]
      rcases List.mem_cons.mp hm with hm | hm
      · rw [hm]
      · exact absurd (huncommitted m hm hnst) (by rw [hwp]; exact Option.noConfusion)
    · intro m hm
      rw [hw] at hm
      injection hm with hm
      rw [he, ← hm]
      exact List.mem_cons_self _ _
  | some m0 =>
    obtain ⟨hw, he, hn, hsp, hci⟩ := createNewWorkpiece_fields_some hwp
    refine ⟨⟨?_, ?_, ?_, ?_⟩, hsp, hci⟩
    · rw [he]
      refine List.nodup_cons.mpr ⟨fun hmem => ?_, hnd.erase m0⟩
      have := hfresh _ (List.mem_of_mem_erase hmem)
      omega
    · intro m hm
      rw [he] at hm
      rw [hn]
      rcases List.mem_cons.mp hm with hm | hm
      · omega
      · have := hfresh m (List.mem_of_mem_erase hm)
        omega
    · intro m hm hnst
      rw [he] at hm
      rw [hsp] at hnst
      rw [hw]
      rcases List.mem_cons.mp hm with hm | hm
      · rw [hm]
      · exfalso
        have hmem := (hnd.mem_erase_iff).mp hm
        have := huncommitted m hmem.2 hnst
        rw [hwp] at this
        exact hmem.1 ((Option.some.injEq _ _).mp this.symm)
    · intro m hm
      rw [hw] at hm
      injection hm with hm
      rw [he, ← hm]
      exact List.mem_cons_self _ _

lemma storeWorkpieceInRack_eq_none {s : ControllerState} (hwp : s.workpiece = none) :
    storeWorkpieceInRack s = s := by
  unfold storeWorkpieceInRack
  rw [hwp]

lemma storeWorkpieceInRack_eq_space {s : ControllerState} {m0 : Nat}
    (hwp : s.workpiece = some m0) (hcap : s.nextCradleIndex < rackCapacity) :
    storeWorkpieceInRack s =
      { s with storedPipes := s.storedPipes ++ [m0]
               nextCradleIndex := s.nextCradleIndex + 1
               workpiece := none } := by
  unfold storeWorkpieceInRack
  rw [hwp]
  dsimp only
  rw [if_pos hcap]

lemma storeWorkpieceInRack_eq_full {s : ControllerState} {m0 : Nat}
    (hwp : s.workpiece = some m0) (hcap : ¬ s.nextCradleIndex < rackCapacity) :
    storeWorkpieceInRack s = { s with workpiece := none } := by
  unfold storeWorkpieceInRack
  rw [hwp]
  dsimp only
  rw [if_neg hcap]

lemma storeWorkpieceInRack_fields_space {s : ControllerState} {m0 : Nat}
    (hwp : s.workpiece = some m0) (hcap : s.nextCradleIndex < rackCapacity) :
    (storeWorkpieceInRack s).workpiece = none ∧
    (storeWorkpieceInRack s).existing = s.existing ∧
    (storeWorkpieceInRack s).nextMeshId = s.nextMeshId ∧
    (storeWorkpieceInRack s).storedPipes = s.storedPipes ++ [m0] ∧
    (storeWorkpieceInRack s).nextCradleIndex = s.nextCradleIndex + 1 := by
  rw [storeWorkpieceInRack_eq_space hwp hcap]
  exact ⟨rfl, rfl, rfl, rfl, rfl⟩

lemma good_store {s : ControllerState} (hs : GoodState s)
    (hcap : s.nextCradleIndex < rackCapacity) :
    GoodState (storeWorkpieceInRack s) ∧
    (storeWorkpieceInRack s).nextCradleIndex ≤ s.nextCradleIndex + 1 := by
  obtain ⟨hnd, hfresh, huncommitted, hlive⟩ := hs
  cases hwp : s.workpiece with
  | none =>
    rw [storeWorkpieceInRack_eq_none hwp]
    exact ⟨⟨hnd, hfresh, huncommitted, hlive⟩, by omega⟩
  | some m0 =>
    obtain ⟨hw, he, hn, hsp, hci⟩ := storeWorkpieceInRack_fields_space hwp hcap
    refine ⟨⟨?_, ?_, ?_, ?_⟩, by rw [hci]⟩
    · rw [he]
      exact hnd
    · intro m hm
      rw [he] at hm
      rw [hn]
      exact hfresh m hm
    · intro m hm hnst
      exfalso
      rw [he] at hm
      rw [hsp] at hnst
      have hns : m ∉ s.storedPipes := fun hc => hnst (by simp [hc])
      have := huncommitted m hm hns
      rw [hwp] at this
      have hmm0 : m = m0 := (Option.some.injEq _ _).mp this.symm
      exact hnst (by simp [hmm0])
    · intro m hm
      rw [hw] at hm
      exact Option.noConfusion hm

lemma execOp_fetchSheet (s : ControllerState) (w : Nat) :
    execOp s (FactoryOp.fetchSheet w) =
      if w < s.workers.length then attachWorkpieceToWorker (createNewWorkpiece s) w else s := by
  show (fetchSheet s w).2 = _
  unfold fetchSheet
  by_cases h : w < s.workers.length
  · rw [if_pos h, if_pos h]
  · rw [if_neg h, if_neg h]

lemma execOp_pickUpFrom (s : ControllerState) (w : Nat) (m : MachineId) :
    execOp s (FactoryOp.pickUpFrom w m) =
      if w < s.workers.length then attachWorkpieceToWorker s w else s := by
  show (pickUpFrom s w m).2 = _
  unfold pickUpFrom
  by_cases h : w < s.workers.length
  · rw [if_pos h, if_pos h]
  · rw [if_neg h, if_neg h]

lemma execOp_carryAndPlace (s : ControllerState) (w : Nat) (m : MachineId) :
    execOp s (FactoryOp.carryAndPlace w m) =
      if w < s.workers.length then detachWorkpieceFromWorker s w else s := by
  show (carryAndPlace s w m).2 = _
  unfold carryAndPlace
  by_cases h : w < s.workers.length
  · rw [if_pos h, if_pos h]
  · rw [if_neg h, if_neg h]

lemma execOp_storeInRack (s : ControllerState) (w : Nat) :
    execOp s (FactoryOp.storeInRack w) =
      if w < s.workers.length then storeWorkpieceInRack (detachWorkpieceFromWorker s w)
      else s := by
  show (storeInRackFromWorker s w).2 = _
  unfold storeInRackFromWorker
  by_cases h : w < s.workers.length
  · rw [if_pos h, if_pos h]
  · rw [if_neg h, if_neg h]

lemma good_execOp {s : ControllerState} (op : FactoryOp) (hs : GoodState s)
    (hcap : s.nextCradleIndex < rackCapacity ∨ isStore op = false) :
    GoodState (execOp s op) ∧
    (execOp s op).nextCradleIndex ≤ s.nextCradleIndex + storeBudget op := by
  cases op with
  | fetchSheet w =>
    rw [execOp_fetchSheet]
    split
    · have hgc := good_createNewWorkpiece hs
      have hatt := coreFields_attach (createNewWorkpiece s) w
      refine ⟨good_of_coreFields hatt hgc.1, ?_⟩
      rw [hatt.2.2.2.2, hgc.2.2]
      exact Nat.le_add_right _ _
    · exact ⟨hs, Nat.le_add_right _ _⟩
  | createNewWorkpiece =>
    have hgc := good_createNewWorkpiece hs
    refine ⟨hgc.1, ?_⟩
    have hx : execOp s FactoryOp.createNewWorkpiece = createNewWorkpiece s := rfl
    rw [hx, hgc.2.2]
    exact Nat.le_add_right _ _
  | pickUpFrom w m =>
    rw [execOp_pickUpFrom]
    split
    · have hatt := coreFields_attach s w
      refine ⟨good_of_coreFields hatt hs, ?_⟩
      rw [hatt.2.2.2.2]
      exact Nat.le_add_right _ _
    · exact ⟨hs, Nat.le_add_right _ _⟩
  | carryAndPlace w m =>
    rw [execOp_carryAndPlace]
    split
    · have hdet := coreFields_detach s w
      refine ⟨good_of_coreFields hdet hs, ?_⟩
      rw [hdet.2.2.2.2]
      exact Nat.le_add_right _ _
    · exact ⟨hs, Nat.le_add_right _ _⟩
  | storeInRack w =>
    have hcap2 : s.nextCradleIndex < rackCapacity := by
      rcases hcap with hcap | hcap
      · exact hcap
      · exact absurd hcap (by simp [isStore])
    have hb : storeBudget (FactoryOp.storeInRack w) = 1 := rfl
    rw [execOp_storeInRack, hb]
    split
    · have hdet := coreFields_detach s w
      have hgd := good_of_coreFields hdet hs
      have hst := good_store hgd (by rw [hdet.2.2.2.2]; exact hcap2)
      refine ⟨hst.1, ?_⟩
      have := hst.2
      rw [hdet.2.2.2.2] at this
      omega
    · exact ⟨hs, by omega⟩
  | operateMachine w m =>
    have hop := coreFields_operate s w m
    refine ⟨good_of_coreFields hop hs, ?_⟩
    have hx : execOp s (FactoryOp.operateMachine w m) = (operateMachineWithWorker s w m).2 :=
      rfl
    rw [hx, hop.2.2.2.2]
    exact Nat.le_add_right _ _
  | setRollerParams p =>
    exact ⟨good_of_coreFields ⟨rfl, rfl, rfl, rfl, rfl⟩ hs, Nat.le_add_right _ _⟩
  | setPressParams p =>
    exact ⟨good_of_coreFields ⟨rfl, rfl, rfl, rfl, rfl⟩ hs, Nat.le_add_right _ _⟩

lemma good_execOps : ∀ (ops : List FactoryOp) (s : ControllerState), GoodState s →
    storeCount ops + s.nextCradleIndex ≤ rackCapacity → GoodState (execOps s ops) := by
  intro ops
  induction ops with
  | nil => intro s hs _; exact hs
  | cons op rest ih =>
    intro s hs hbudget
    have hcount : storeCount (op :: rest) = storeCount rest + storeBudget op := by
      unfold storeCount storeBudget
      rw [List.countP_cons]
    have hcap : s.nextCradleIndex < rackCapacity ∨ isStore op = false := by
      cases hb : isStore op
      · exact Or.inr rfl
      · left
        rw [hcount] at hbudget
        unfold storeBudget at hbudget
        rw [hb] at hbudget
        simp only [if_pos] at hbudget
        omega
    have hstep := good_execOp op hs hcap
    have hx : execOps s (op :: rest) = execOps (execOp s op) rest := rfl
    rw [hx]
    refine ih (execOp s op) hstep.1 ?_
    have h2 := hstep.2
    rw [hcount] at hbudget
    omega

lemma good_initController : GoodState initController := by
  refine ⟨List.nodup_nil, ?_, ?_, ?_⟩ <;> intro m hm <;> simp [initController] at hm

/-- C9 counterexample: after six fetch-store cycles (the sixth store hits
the full 5-slot rack and silently drops the reference while the mesh stays
in the scene) and one more fetch, two live uncommitted workpieces exist. -/
theorem rack_overflow_counterexample :
    ¬ (liveUncommitted (execOps initController overflowOps)).length ≤ 1 := by decide

/-- C9 amended: as long as no more store operations are issued than the
rack has cradles (5), at most one live uncommitted workpiece ever exists;
creating a new workpiece disposes the existing one, and storing always
clears the live reference. -/
theorem single_live_workpiece (ops : List FactoryOp) (h : storeCount ops ≤ rackCapacity) :
    (liveUncommitted (execOps initController ops)).length ≤ 1 ∧
    (∀ s : ControllerState, GoodState s → ∀ m, s.workpiece = some m →
      m ∉ (createNewWorkpiece s).existing) ∧
    (∀ s : ControllerState, (storeWorkpieceInRack s).workpiece = none) := by
  refine ⟨?_, ?_, ?_⟩
  · refine good_liveUncommitted (good_execOps ops initController good_initController ?_)
    simp [initController]
    omega
  · intro s hs m hm hmem
    rw [createNewWorkpiece_eq_some hm] at hmem
    rcases List.mem_cons.mp hmem with hc | hc
    · have hlt : m < s.nextMeshId := hs.2.1 m (hs.2.2.2 m hm)
      omega
    · exact ((hs.1.mem_erase_iff).mp hc).1 rfl
  · intro s
    cases hwp : s.workpiece with
    | none => rw [storeWorkpieceInRack_eq_none hwp]; exact hwp
    | some m0 =>
      by_cases hcap : s.nextCradleIndex < rackCapacity
      · rw [storeWorkpieceInRack_eq_space hwp hcap]
      · rw [storeWorkpieceInRack_eq_full hwp hcap]

/-! ## C3 — worker session iteration cap -/

lemma execWorkerCalls_cons_nonterminal (w : Nat) (s : ControllerState) (c : WorkerTool)
    (rest : List WorkerTool) (hc : isTerminalCall c = false) :
    execWorkerCalls w s (c :: rest) =
      match execWorkerCalls w (execWorkerTool w s c).2 rest with
      | .finished rs s2 => .finished ((workerToolName c, (execWorkerTool w s c).1) :: rs) s2
      | .terminal r s2 => .terminal r s2 := by
  cases c <;> first | rfl | simp [isTerminalCall] at hc

lemma execWorkerCalls_finished (w : Nat) :
    ∀ (calls : List WorkerTool) (s : ControllerState),
      (∀ c ∈ calls, isTerminalCall c = false) →
      ∃ rs s1, execWorkerCalls w s calls = .finished rs s1 := by
  intro calls
  induction calls with
  | nil => intro s _; exact ⟨[], s, rfl⟩
  | cons c rest ih =>
    intro s h
    have hrest : ∀ x ∈ rest, isTerminalCall x = false :=
      fun x hx => h x (List.mem_cons_of_mem _ hx)
    rw [execWorkerCalls_cons_nonterminal w s c rest (h c (List.mem_cons_self _ _))]
    obtain ⟨rs, s1, hx⟩ := ih (execWorkerTool w s c).2 hrest
    rw [hx]
    exact ⟨_, _, rfl⟩

lemma runWorkerLoop_timeout (w : Nat) (respond : Nat → ApiResponse)
    (hresp : ∀ n, ∃ calls, respond n = ApiResponse.toolCalls calls ∧
      ∀ c ∈ calls, isTerminalCall c = false) :
    ∀ (fuel idx : Nat) (s : ControllerState) (reqs : List WorkerRequest) (rounds : Nat),
      (runWorkerLoop w respond fuel idx s reqs rounds).result =
        "Worker task timed out (max iterations)" ∧
      (runWorkerLoop w respond fuel idx s reqs rounds).rounds = rounds + fuel := by
  intro fuel
  induction fuel with
  | zero => intro idx s reqs rounds; exact ⟨rfl, rfl⟩
  | succ f ih =>
    intro idx s reqs rounds
    obtain ⟨calls, hc, hnt⟩ := hresp idx
    obtain ⟨rs, s1, hx⟩ := execWorkerCalls_finished w calls s hnt
    simp only [runWorkerLoop, hc, hx]
    have := ih (idx + 1) s1 (reqs ++ [.toolResults rs]) (rounds + 1)
    exact ⟨this.1, by rw [this.2]; omega⟩

/-- C3 counterexample: a reasoning service that never issues
`reportTaskComplete` or `reportProblem` but answers with a final text
report ends the session on the first turn with that text — not at the
20-iteration cap with the timed-out result. -/
theorem worker_text_ends_early_counterexample :
    (runWorkerTask 0 "Cut the sheet" alwaysText initController).result =
      "All four segments are welded" ∧
    (runWorkerTask 0 "Cut the sheet" alwaysText initController).rounds = 0 ∧
    (runWorkerTask 0 "Cut the sheet" alwaysText initController).result ≠
      "Worker task timed out (max iterations)" :=
  ⟨by decide, by decide, by decide⟩

/-- C3 amended: a worker session whose reasoning service always responds
with tool-call batches containing neither `reportTaskComplete` nor
`reportProblem` terminates with the timed-out result after resolving
exactly `WORKER_MAX_ITERATIONS` (20) tool-call rounds, never more;
sessions that instead receive a final text or a non-rate-limited error
terminate earlier with that result. -/
theorem worker_session_iteration_cap (w : Nat) (task : String) (respond : Nat → ApiResponse)
    (s : ControllerState)
    (h : ∀ n, ∃ calls, respond n = ApiResponse.toolCalls calls ∧
      ∀ c ∈ calls, isTerminalCall c = false) :
    (runWorkerTask w task respond s).result = "Worker task timed out (max iterations)" ∧
    (runWorkerTask w task respond s).rounds = WORKER_MAX_ITERATIONS := by
  unfold runWorkerTask
  have := runWorkerLoop_timeout w respond h WORKER_MAX_ITERATIONS 0 s [.message task] 0
  exact ⟨this.1, by rw [this.2]; omega⟩

/-- C3 amended-claim witness: a service that always asks for one walk. -/
theorem worker_session_iteration_cap_witness :
    (∀ n, ∃ calls, alwaysWalk n = ApiResponse.toolCalls calls ∧
      ∀ c ∈ calls, isTerminalCall c = false) ∧
    ((runWorkerTask 0 "Cut the sheet" alwaysWalk initController).result =
        "Worker task timed out (max iterations)" ∧
      (runWorkerTask 0 "Cut the sheet" alwaysWalk initController).rounds =
        WORKER_MAX_ITERATIONS) :=
  ⟨fun _ => ⟨[.walkToMachine .cutter], rfl,
      fun c hc => by rw [List.mem_singleton.mp hc]; rfl⟩,
    worker_session_iteration_cap 0 "Cut the sheet" alwaysWalk initController
      (fun _ => ⟨[.walkToMachine .cutter], rfl,
        fun c hc => by rw [List.mem_singleton.mp hc]; rfl⟩)⟩

/-! ## C4 — rate-limit retry does not resend the same request -/

/-- C4: evaluating the worker loop at a rate-limited first response shows
the follow-up request is the fixed message "Please continue with your
task." — a new message, not the original pending request ("Weld the
seam"), despite the source comment "Retry the same message". The
orchestrator loop likewise re-prompts with
"Please continue coordinating the manufacturing.". -/
theorem rate_limit_retry_not_verbatim :
    (runWorkerTask 0 "Weld the seam" rateLimitedOnce initController).requests =
      [WorkerRequest.message "Weld the seam", WorkerRequest.message workerRetryMessage] ∧
    (runWorkerTask 0 "Weld the seam" rateLimitedOnce initController).result = "Seam welded" ∧
    workerRetryMessage ≠ "Weld the seam" ∧
    orchestratorRetryMessage = "Please continue coordinating the manufacturing." :=
  ⟨by decide, by decide, by decide, rfl⟩

/-! ## C8 — dispatchWorkerTask step lifecycle -/

lemma markFirst_get?_eq (f : ManufacturingStep → ManufacturingStep) (stepId : String) :
    ∀ (steps : List ManufacturingStep) (k : Nat) (st : ManufacturingStep),
      steps.get? k = some st → st.id = stepId →
      (∀ j, j < k → ∀ st', steps.get? j = some st' → st'.id ≠ stepId) →
      (markFirst f stepId steps).get? k = some (f st) ∧
      (∀ j, j ≠ k → (markFirst f stepId steps).get? j = steps.get? j) := by
  intro steps
  induction steps with
  | nil => intro k st hk _ _; simp at hk
  | cons a rest ih =>
    intro k st hk hid hfirst
    cases k with
    | zero =>
      simp only [List.get?] at hk
      injection hk with hk
      subst hk
      unfold markFirst
      rw [if_pos hid]
      refine ⟨rfl, ?_⟩
      intro j hj
      cases j with
      | zero => exact absurd rfl hj
      | succ j => rfl
    | succ k =>
      have ha : a.id ≠ stepId := hfirst 0 (Nat.succ_pos k) a rfl
      simp only [List.get?] at hk
      unfold markFirst
      rw [if_neg ha]
      have hrest := ih k st hk hid
        (fun j hj st' hj2 => hfirst (j + 1) (Nat.succ_lt_succ hj) st' hj2)
      refine ⟨hrest.1, ?_⟩
      intro j hj
      cases j with
      | zero => rfl
      | succ j => exact hrest.2 j (fun hc => hj (by rw [hc]))

/-- C8: resolving a `dispatchWorkerTask` call first marks the referenced
step `in_progress` with the worker assigned, runs the nested worker
session to completion (the planner resumes only with its result), and then
marks that step `failed` exactly when the worker's terminal report
contains failure language (`"problem"` or `"error"`) and `completed`
otherwise; every other step is untouched, the worker's report is fed back
as the tool result, and the controller state is the worker session's final
state. `k` locates the first step whose id is `relatedStepId`. -/
theorem dispatch_step_lifecycle (streams : Nat → Nat → ApiResponse)
    (steps : List ManufacturingStep) (s : ControllerState) (workerId : Nat)
    (task stepId : String) (k : Nat) (st : ManufacturingStep)
    (hk : steps.get? k = some st) (hid : st.id = stepId)
    (hfirst : ∀ j, j < k → ∀ st', steps.get? j = some st' → st'.id ≠ stepId) :
    (markFirst (fun x => { x with status := .in_progress, workerId := some workerId }) stepId
        steps).get? k =
      some { st with status := .in_progress, workerId := some workerId } ∧
    (executeOrchestratorToolCalls streams [.dispatchWorkerTask workerId task stepId] 0 steps
        s).2.1.get? k =
      some { st with
        status :=
          if failureLanguage (runWorkerTask workerId task (streams 0) s).result then .failed
          else .completed
        workerId := some workerId } ∧
    (∀ j, j ≠ k →
      (executeOrchestratorToolCalls streams [.dispatchWorkerTask workerId task stepId] 0 steps
          s).2.1.get? j = steps.get? j) ∧
    (executeOrchestratorToolCalls streams [.dispatchWorkerTask workerId task stepId] 0 steps
        s).1 =
      [("dispatchWorkerTask",
        "Worker " ++ toString workerId ++ " finished: " ++
          (runWorkerTask workerId task (streams 0) s).result)] ∧
    (executeOrchestratorToolCalls streams [.dispatchWorkerTask workerId task stepId] 0 steps
        s).2.2 = (runWorkerTask workerId task (streams 0) s).state := by
  have hmark1 := markFirst_get?_eq
    (fun x => { x with status := StepStatus.in_progress, workerId := some workerId }) stepId
    steps k st hk hid hfirst
  have hmark2 := markFirst_get?_eq
    (fun x => { x with status :=
        if failureLanguage (runWorkerTask workerId task (streams 0) s).result then
          StepStatus.failed
        else StepStatus.completed }) stepId
    (markFirst (fun x => { x with status := StepStatus.in_progress, workerId := some workerId })
      stepId steps)
    k { st with status := StepStatus.in_progress, workerId := some workerId }
    hmark1.1 hid
    (fun j hj st' hj2 => hfirst j hj st' (by rw [← hmark1.2 j (Nat.ne_of_lt hj)]; exact hj2))
  have hout1 : (executeOrchestratorToolCalls streams
      [.dispatchWorkerTask workerId task stepId] 0 steps s).1 =
      [("dispatchWorkerTask",
        "Worker " ++ toString workerId ++ " finished: " ++
          (runWorkerTask workerId task (streams 0) s).result)] := rfl
  have hout21 : (executeOrchestratorToolCalls streams
      [.dispatchWorkerTask workerId task stepId] 0 steps s).2.1 =
      markFirst
        (fun x =>
          { x with status := if failureLanguage (runWorkerTask workerId task (streams 0) s).result then StepStatus.failed else StepStatus.completed })
        stepId
        (markFirst
          (fun x => { x with status := StepStatus.in_progress, workerId := some workerId })
          stepId steps) := rfl
  have hout22 : (executeOrchestratorToolCalls streams
      [.dispatchWorkerTask workerId task stepId] 0 steps s).2.2 =
      (runWorkerTask workerId task (streams 0) s).state := rfl
  refine ⟨hmark1.1, ?_, ?_, hout1, hout22⟩
  · rw [hout21, hmark2.1]
  · intro j hj
    rw [hout21, hmark2.2 j hj, hmark1.2 j hj]

/-- C8 witness: a single pending step dispatched to worker 1 whose
reasoning service immediately reports a clean text result; the step ends
`completed`. -/
theorem dispatch_step_lifecycle_witness :
    (([stepW].get? 0 = some stepW ∧ stepW.id = "step-1" ∧
        (∀ j, j < 0 → ∀ st', [stepW].get? j = some st' → st'.id ≠ "step-1"))) ∧
    ((markFirst (fun x => { x with status := .in_progress, workerId := some 1 }) "step-1"
        [stepW]).get? 0 =
      some { stepW with status := .in_progress, workerId := some 1 } ∧
    (executeOrchestratorToolCalls streamsTextDone [.dispatchWorkerTask 1 "Fetch the sheet"
        "step-1"] 0 [stepW] initController).2.1.get? 0 =
      some { stepW with
        status :=
          if failureLanguage
              (runWorkerTask 1 "Fetch the sheet" (streamsTextDone 0) initController).result then
            .failed
          else .completed
        workerId := some 1 } ∧
    (∀ j, j ≠ 0 →
      (executeOrchestratorToolCalls streamsTextDone [.dispatchWorkerTask 1 "Fetch the sheet"
          "step-1"] 0 [stepW] initController).2.1.get? j = [stepW].get? j) ∧
    (executeOrchestratorToolCalls streamsTextDone [.dispatchWorkerTask 1 "Fetch the sheet"
        "step-1"] 0 [stepW] initController).1 =
      [("dispatchWorkerTask",
        "Worker " ++ toString 1 ++ " finished: " ++
          (runWorkerTask 1 "Fetch the sheet" (streamsTextDone 0) initController).result)] ∧
    (executeOrchestratorToolCalls streamsTextDone [.dispatchWorkerTask 1 "Fetch the sheet"
        "step-1"] 0 [stepW] initController).2.2 =
      (runWorkerTask 1 "Fetch the sheet" (streamsTextDone 0) initController).state) :=
  ⟨⟨rfl, rfl, fun j hj => absurd hj (Nat.not_lt_zero j)⟩,
    dispatch_step_lifecycle streamsTextDone [stepW] initController 1 "Fetch the sheet" "step-1"
      0 stepW rfl rfl (fun j hj => absurd hj (Nat.not_lt_zero j))⟩

/-- C9 amended-claim witness: five fetch-store cycles stay within the rack
budget. -/
theorem single_live_workpiece_witness :
    storeCount [FactoryOp.fetchSheet 0, FactoryOp.storeInRack 0] ≤ rackCapacity ∧
    ((liveUncommitted
        (execOps initController [FactoryOp.fetchSheet 0, FactoryOp.storeInRack 0])).length ≤ 1 ∧
      (∀ s : ControllerState, GoodState s → ∀ m, s.workpiece = some m →
        m ∉ (createNewWorkpiece s).existing) ∧
      (∀ s : ControllerState, (storeWorkpieceInRack s).workpiece = none)) :=
  ⟨by decide, single_live_workpiece [FactoryOp.fetchSheet 0, FactoryOp.storeInRack 0] (by decide)⟩


/-! ## C10 — falsy bottomDiameter coalesces to the running diameter -/

lemma jsOr_some_self (d : ℚ) : jsOr (some d) d = d := by
  show (if d = 0 then d else d) = d
  split <;> rfl

lemma setBDList_length : ∀ (segs : List PipeSegment) (i : Nat) (bd : Option ℚ),
    (setBDList segs i bd).length = segs.length := by
  intro segs
  induction segs with
  | nil => intro i bd; rfl
  | cons a rest ih =>
    intro i bd
    cases i with
    | zero => rfl
    | succ i => simp [setBDList, ih]

lemma setBDList_heightSum : ∀ (segs : List PipeSegment) (i : Nat) (bd : Option ℚ),
    heightSum (setBDList segs i bd) = heightSum segs := by
  intro segs
  induction segs with
  | nil => intro i bd; rfl
  | cons a rest ih =>
    intro i bd
    cases i with
    | zero => rw [setBDList, heightSum_cons, heightSum_cons]
    | succ i => rw [setBDList, heightSum_cons, heightSum_cons, ih]

lemma setBDList_self : ∀ (segs : List PipeSegment) (i : Nat) (st : PipeSegment),
    segs.get? i = some st → setBDList segs i st.bottomDiameter = segs := by
  intro segs
  induction segs with
  | nil => intro i st h; simp at h
  | cons a rest ih =>
    intro i st h
    cases i with
    | zero =>
      simp only [List.get?] at h
      injection h with h
      subst h
      rfl
    | succ i =>
      simp only [List.get?] at h
      rw [setBDList, ih i st h]

lemma scan_foldl_eq_threadDia : ∀ (l : List PipeSegment) (d : ℚ),
    l.foldl
      (fun d seg =>
        if seg.type = SegType.frustrum ∧ truthy seg.bottomDiameter then jsOr seg.bottomDiameter d
        else d)
      d = l.foldl threadDia d := by
  intro l
  induction l with
  | nil => intro d; rfl
  | cons a rest ih =>
    intro d
    rw [List.foldl_cons, List.foldl_cons, ih]
    congr 1
    unfold threadDia truthy jsOr
    cases hty : a.type with
    | cylinder => simp [hty]
    | frustrum =>
      cases hbd : a.bottomDiameter with
      | none => simp [hty, hbd]
      | some v =>
        by_cases hv : v = 0
        · simp [hty, hbd, hv]
        · simp [hty, hbd, hv]

lemma autoFillDia_eq_threadDia (spec : PipeSpec) :
    autoFillDia spec = spec.segments.foldl threadDia spec.initialDiameter := by
  unfold autoFillDia
  exact scan_foldl_eq_threadDia spec.segments spec.initialDiameter

lemma valLoop_cons_cylinder (i0 : Nat) (rd used : ℚ) (seg : PipeSegment)
    (rest : List PipeSegment) (hty : seg.type = SegType.cylinder) :
    valLoop i0 rd used (seg :: rest) =
      (segErrors i0 rd seg ++ (valLoop (i0 + 1) rd (used + seg.height) rest).1,
        (valLoop (i0 + 1) rd (used + seg.height) rest).2.1,
        (valLoop (i0 + 1) rd (used + seg.height) rest).2.2.1,
        { seg with diameter := some rd } ::
          (valLoop (i0 + 1) rd (used + seg.height) rest).2.2.2) := by
  obtain ⟨ty, hh, dia, td, bd⟩ := seg
  subst hty
  rfl

lemma valLoop_cons_frustrum (i0 : Nat) (rd used : ℚ) (seg : PipeSegment)
    (rest : List PipeSegment) (hty : seg.type = SegType.frustrum) :
    valLoop i0 rd used (seg :: rest) =
      (segErrors i0 rd seg ++
          (valLoop (i0 + 1) (jsOr seg.bottomDiameter rd) (used + seg.height) rest).1,
        (valLoop (i0 + 1) (jsOr seg.bottomDiameter rd) (used + seg.height) rest).2.1,
        (valLoop (i0 + 1) (jsOr seg.bottomDiameter rd) (used + seg.height) rest).2.2.1,
        { seg with topDiameter := some rd } ::
          (valLoop (i0 + 1) (jsOr seg.bottomDiameter rd) (used + seg.height) rest).2.2.2) := by
  obtain ⟨ty, hh, dia, td, bd⟩ := seg
  subst hty
  rfl

lemma breakdownLoop_cons_cylinder (pi : ℚ) (sq : ℚ → ℚ) (seg : PipeSegment)
    (rest : List PipeSegment) (i c : Nat) (rd : ℚ) (hty : seg.type = SegType.cylinder) :
    breakdownLoop pi sq (seg :: rest) i c rd =
      cylinderSteps pi i c rd seg ++ breakdownLoop pi sq rest (i + 1) (c + 4) rd := by
  obtain ⟨ty, hh, dia, td, bd⟩ := seg
  subst hty
  rfl

lemma breakdownLoop_cons_frustrum (pi : ℚ) (sq : ℚ → ℚ) (seg : PipeSegment)
    (rest : List PipeSegment) (i c : Nat) (rd : ℚ) (hty : seg.type = SegType.frustrum) :
    breakdownLoop pi sq (seg :: rest) i c rd =
      frustrumSteps pi sq i c rd seg ++
        breakdownLoop pi sq rest (i + 1) (c + 4) (jsOr seg.bottomDiameter rd) := by
  obtain ⟨ty, hh, dia, td, bd⟩ := seg
  subst hty
  rfl

lemma threadDia_frustrum (rd : ℚ) (seg : PipeSegment) (hty : seg.type = SegType.frustrum) :
    threadDia rd seg = jsOr seg.bottomDiameter rd := by
  obtain ⟨ty, hh, dia, td, bd⟩ := seg
  subst hty
  rfl

lemma valLoop_frustrum_errors (i0 : Nat) (rd used : ℚ) (seg : PipeSegment)
    (rest : List PipeSegment) (hty : seg.type = SegType.frustrum) :
    (valLoop i0 rd used (seg :: rest)).1 =
      segErrors i0 rd seg ++
        (valLoop (i0 + 1) (jsOr seg.bottomDiameter rd) (used + seg.height) rest).1 := by
  obtain ⟨ty, hh, dia, td, bd⟩ := seg
  subst hty
  rfl

lemma valLoop_frustrum_used (i0 : Nat) (rd used : ℚ) (seg : PipeSegment)
    (rest : List PipeSegment) (hty : seg.type = SegType.frustrum) :
    (valLoop i0 rd used (seg :: rest)).2.2.1 =
      (valLoop (i0 + 1) (jsOr seg.bottomDiameter rd) (used + seg.height) rest).2.2.1 := by
  obtain ⟨ty, hh, dia, td, bd⟩ := seg
  subst hty
  rfl

lemma valLoop_cylinder_errors (i0 : Nat) (rd used : ℚ) (seg : PipeSegment)
    (rest : List PipeSegment) (hty : seg.type = SegType.cylinder) :
    (valLoop i0 rd used (seg :: rest)).1 =
      segErrors i0 rd seg ++ (valLoop (i0 + 1) rd (used + seg.height) rest).1 := by
  obtain ⟨ty, hh, dia, td, bd⟩ := seg
  subst hty
  rfl

lemma valLoop_cylinder_used (i0 : Nat) (rd used : ℚ) (seg : PipeSegment)
    (rest : List PipeSegment) (hty : seg.type = SegType.cylinder) :
    (valLoop i0 rd used (seg :: rest)).2.2.1 =
      (valLoop (i0 + 1) rd (used + seg.height) rest).2.2.1 := by
  obtain ⟨ty, hh, dia, td, bd⟩ := seg
  subst hty
  rfl

lemma segErrors_congr_frustrum (i : Nat) (rd : ℚ) (s1 s2 : PipeSegment)
    (hty1 : s1.type = SegType.frustrum) (hty2 : s2.type = SegType.frustrum)
    (hh : s1.height = s2.height)
    (hb : jsOr s1.bottomDiameter rd = jsOr s2.bottomDiameter rd) :
    segErrors i rd s1 = segErrors i rd s2 := by
  obtain ⟨t1, h1, d1, td1, b1⟩ := s1
  obtain ⟨t2, h2, d2, td2, b2⟩ := s2
  subst hty1
  subst hty2
  dsimp only at hh hb
  unfold segErrors
  dsimp only
  rw [hh, hb]

lemma frustrumSteps_congr (pi : ℚ) (sq : ℚ → ℚ) (i c : Nat) (rd : ℚ) (s1 s2 : PipeSegment)
    (hh : s1.height = s2.height)
    (ht : jsOr s1.topDiameter rd = jsOr s2.topDiameter rd)
    (hb : jsOr s1.bottomDiameter rd = jsOr s2.bottomDiameter rd) :
    frustrumSteps pi sq i c rd s1 = frustrumSteps pi sq i c rd s2 := by
  unfold frustrumSteps
  rw [hh, ht, hb]

lemma foldl_threadDia_setBD : ∀ (segs : List PipeSegment) (i : Nat) (st : PipeSegment)
    (b bb : Option ℚ) (rd : ℚ), segs.get? i = some st → st.type = SegType.frustrum →
    jsOr b ((segs.take i).foldl threadDia rd) = jsOr bb ((segs.take i).foldl threadDia rd) →
    (setBDList segs i b).foldl threadDia rd = (setBDList segs i bb).foldl threadDia rd := by
  intro segs
  induction segs with
  | nil => intro i st b bb rd h _ _; simp at h
  | cons a rest ih =>
    intro i st b bb rd h hty hjs
    cases i with
    | zero =>
      simp only [List.get?] at h
      injection h with h
      subst h
      simp only [List.take_zero, List.foldl_nil] at hjs
      rw [setBDList, setBDList, List.foldl_cons, List.foldl_cons,
        threadDia_frustrum rd { a with bottomDiameter := b } hty,
        threadDia_frustrum rd { a with bottomDiameter := bb } hty]
      dsimp only
      rw [hjs]
    | succ i =>
      simp only [List.get?] at h
      simp only [List.take_succ_cons, List.foldl_cons] at hjs
      rw [setBDList, setBDList, List.foldl_cons, List.foldl_cons]
      exact ih i st b bb (threadDia rd a) h hty hjs

lemma valLoop_setBD : ∀ (segs : List PipeSegment) (i : Nat) (st : PipeSegment)
    (b bb : Option ℚ) (i0 : Nat) (rd used : ℚ),
    segs.get? i = some st → st.type = SegType.frustrum →
    jsOr b ((segs.take i).foldl threadDia rd) = jsOr bb ((segs.take i).foldl threadDia rd) →
    (valLoop i0 rd used (setBDList segs i b)).1 = (valLoop i0 rd used (setBDList segs i bb)).1 ∧
    (valLoop i0 rd used (setBDList segs i b)).2.2.1 =
      (valLoop i0 rd used (setBDList segs i bb)).2.2.1 := by
  intro segs
  induction segs with
  | nil => intro i st b bb i0 rd used h _ _; simp at h
  | cons a rest ih =>
    intro i st b bb i0 rd used h hty hjs
    cases i with
    | zero =>
      simp only [List.get?] at h
      injection h with h
      subst h
      simp only [List.take_zero, List.foldl_nil] at hjs
      have htyb : ({ a with bottomDiameter := b } : PipeSegment).type = SegType.frustrum := hty
      have htybb : ({ a with bottomDiameter := bb } : PipeSegment).type = SegType.frustrum :=
        hty
      rw [setBDList, setBDList, valLoop_frustrum_errors _ _ _ _ _ htyb,
        valLoop_frustrum_errors _ _ _ _ _ htybb, valLoop_frustrum_used _ _ _ _ _ htyb,
        valLoop_frustrum_used _ _ _ _ _ htybb]
      dsimp only
      rw [hjs, segErrors_congr_frustrum i0 rd _ _ htyb htybb rfl hjs]
      exact ⟨rfl, rfl⟩
    | succ i =>
      simp only [List.get?] at h
      simp only [List.take_succ_cons, List.foldl_cons] at hjs
      rw [setBDList, setBDList]
      cases hatype : a.type with
      | cylinder =>
        rw [valLoop_cylinder_errors _ _ _ _ _ hatype, valLoop_cylinder_errors _ _ _ _ _ hatype,
          valLoop_cylinder_used _ _ _ _ _ hatype, valLoop_cylinder_used _ _ _ _ _ hatype]
        have hthread : threadDia rd a = rd := by
          obtain ⟨ty, hh, dia, td, bd⟩ := a
          subst hatype
          rfl
        rw [hthread] at hjs
        have hihx := ih i st b bb (i0 + 1) rd (used + a.height) h hty hjs
        rw [hihx.1, hihx.2]
        exact ⟨rfl, rfl⟩
      | frustrum =>
        rw [valLoop_frustrum_errors _ _ _ _ _ hatype, valLoop_frustrum_errors _ _ _ _ _ hatype,
          valLoop_frustrum_used _ _ _ _ _ hatype, valLoop_frustrum_used _ _ _ _ _ hatype]
        have hthread : threadDia rd a = jsOr a.bottomDiameter rd := threadDia_frustrum rd a hatype
        rw [hthread] at hjs
        have hihx := ih i st b bb (i0 + 1) (jsOr a.bottomDiameter rd) (used + a.height) h hty hjs
        rw [hihx.1, hihx.2]
        exact ⟨rfl, rfl⟩

lemma breakdownLoop_setBD (pi : ℚ) (sq : ℚ → ℚ) :
    ∀ (segs : List PipeSegment) (i : Nat) (st : PipeSegment) (b bb : Option ℚ)
      (F : List PipeSegment) (i0 c : Nat) (rd : ℚ),
      segs.get? i = some st → st.type = SegType.frustrum →
      jsOr b ((segs.take i).foldl threadDia rd) = jsOr bb ((segs.take i).foldl threadDia rd) →
      breakdownLoop pi sq (setBDList segs i b ++ F) i0 c rd =
        breakdownLoop pi sq (setBDList segs i bb ++ F) i0 c rd := by
  intro segs
  induction segs with
  | nil => intro i st b bb F i0 c rd h _ _; simp at h
  | cons a rest ih =>
    intro i st b bb F i0 c rd h hty hjs
    cases i with
    | zero =>
      simp only [List.get?] at h
      injection h with h
      subst h
      simp only [List.take_zero, List.foldl_nil] at hjs
      have htyb : ({ a with bottomDiameter := b } : PipeSegment).type = SegType.frustrum := hty
      have htybb : ({ a with bottomDiameter := bb } : PipeSegment).type = SegType.frustrum :=
        hty
      rw [setBDList, setBDList, List.cons_append, List.cons_append,
        breakdownLoop_cons_frustrum pi sq _ _ _ _ _ htyb,
        breakdownLoop_cons_frustrum pi sq _ _ _ _ _ htybb]
      dsimp only
      rw [hjs, frustrumSteps_congr pi sq i0 c rd { a with bottomDiameter := b }
        { a with bottomDiameter := bb } rfl rfl hjs]
    | succ i =>
      simp only [List.get?] at h
      simp only [List.take_succ_cons, List.foldl_cons] at hjs
      rw [setBDList, setBDList]
      cases hatype : a.type with
      | cylinder =>
        rw [List.cons_append, List.cons_append,
          breakdownLoop_cons_cylinder pi sq _ _ _ _ _ hatype,
          breakdownLoop_cons_cylinder pi sq _ _ _ _ _ hatype]
        have hthread : threadDia rd a = rd := by
          obtain ⟨ty, hh, dia, td, bd⟩ := a
          subst hatype
          rfl
        rw [hthread] at hjs
        rw [ih i st b bb F (i0 + 1) (c + 4) rd h hty hjs]
      | frustrum =>
        rw [List.cons_append, List.cons_append,
          breakdownLoop_cons_frustrum pi sq _ _ _ _ _ hatype,
          breakdownLoop_cons_frustrum pi sq _ _ _ _ _ hatype]
        have hthread : threadDia rd a = jsOr a.bottomDiameter rd := threadDia_frustrum rd a hatype
        rw [hthread] at hjs
        rw [ih i st b bb F (i0 + 1) (c + 4) (jsOr a.bottomDiameter rd) h hty hjs]

lemma validatePipeSpec_congr (s1 s2 : PipeSpec)
    (hT : s1.totalLength = s2.totalLength) (hI : s1.initialDiameter = s2.initialDiameter)
    (hL : s1.segments.length = s2.segments.length)
    (hE : (valLoop 0 s1.initialDiameter 0 s1.segments).1 =
      (valLoop 0 s2.initialDiameter 0 s2.segments).1)
    (hU : (valLoop 0 s1.initialDiameter 0 s1.segments).2.2.1 =
      (valLoop 0 s2.initialDiameter 0 s2.segments).2.2.1) :
    validatePipeSpec s1 = validatePipeSpec s2 := by
  have htop : topLevelErrors s1 = topLevelErrors s2 := by
    unfold topLevelErrors
    rw [hT, hI]
  unfold validatePipeSpec
  dsimp only
  rw [htop, hT, hL, hE, hU]

lemma validate_setBD_congr (spec : PipeSpec) (i : Nat) (st : PipeSegment) (b bb : Option ℚ)
    (hget : spec.segments.get? i = some st) (hty : st.type = SegType.frustrum)
    (hjs : jsOr b (runningDiaAt spec i) = jsOr bb (runningDiaAt spec i)) :
    validatePipeSpec (setBD spec i b) = validatePipeSpec (setBD spec i bb) := by
  have hvl := valLoop_setBD spec.segments i st b bb 0 spec.initialDiameter 0 hget hty hjs
  refine validatePipeSpec_congr (setBD spec i b) (setBD spec i bb) rfl rfl ?_ hvl.1 hvl.2
  show (setBDList spec.segments i b).length = (setBDList spec.segments i bb).length
  rw [setBDList_length, setBDList_length]

lemma breakdownPipeSpec_setBD_congr (pi : ℚ) (sq : ℚ → ℚ) (spec : PipeSpec) (i : Nat)
    (st : PipeSegment) (b bb : Option ℚ)
    (hget : spec.segments.get? i = some st) (hty : st.type = SegType.frustrum)
    (hjs : jsOr b (runningDiaAt spec i) = jsOr bb (runningDiaAt spec i)) :
    breakdownPipeSpec pi sq (setBD spec i b) = breakdownPipeSpec pi sq (setBD spec i bb) := by
  have hlen0 : 0 < spec.segments.length := by
    obtain ⟨hlt, _⟩ := List.get?_eq_some.mp hget
    omega
  have hdia : autoFillDia (setBD spec i b) = autoFillDia (setBD spec i bb) := by
    rw [autoFillDia_eq_threadDia, autoFillDia_eq_threadDia]
    exact foldl_threadDia_setBD spec.segments i st b bb spec.initialDiameter hget hty hjs
  have hloop := breakdownLoop_setBD pi sq spec.segments i st b bb
  unfold breakdownPipeSpec autoFillSegments setBD
  dsimp only
  rw [setBDList_length, setBDList_length, setBDList_heightSum, setBDList_heightSum]
  rw [if_pos hlen0, if_pos hlen0]
  by_cases hrem :
      CONSTRAINTS.minSegmentHeight ≤ spec.totalLength - heightSum spec.segments
  · rw [if_pos hrem, if_pos hrem]
    have hdia2 : autoFillDia { spec with segments := setBDList spec.segments i b } =
        autoFillDia { spec with segments := setBDList spec.segments i bb } := hdia
    rw [hdia2]
    rw [hloop (fillSegments
        (autoFillDia { spec with segments := setBDList spec.segments i bb })
        (spec.totalLength - heightSum spec.segments)) 0 0 spec.initialDiameter hget hty hjs]
    rw [List.length_append, List.length_append, setBDList_length, setBDList_length]
  · rw [if_neg hrem, if_neg hrem]
    have hx := hloop [] 0 0 spec.initialDiameter hget hty hjs
    rw [List.append_nil, List.append_nil] at hx
    rw [hx, setBDList_length, setBDList_length]

/-- C10: a frustrum segment whose declared `bottomDiameter` is absent or 0
is treated, by both `validatePipeSpec` and `breakdownPipeSpec`, exactly as
if its `bottomDiameter` were the current running diameter (the falsy
coalescing `seg.bottomDiameter || runningDiameter`); in particular a
declared `bottomDiameter` of 0 validates and decomposes identically to an
absent one, so 0 by itself never produces a validation error. -/
theorem falsy_bottom_diameter_substitution (spec : PipeSpec) (i : Nat) (st : PipeSegment)
    (pi : ℚ) (sq : ℚ → ℚ)
    (hget : spec.segments.get? i = some st) (hty : st.type = SegType.frustrum)
    (hbd : st.bottomDiameter = none ∨ st.bottomDiameter = some 0) :
    validatePipeSpec spec = validatePipeSpec (setBD spec i (some (runningDiaAt spec i))) ∧
    validatePipeSpec (setBD spec i (some 0)) = validatePipeSpec (setBD spec i none) ∧
    breakdownPipeSpec pi sq spec =
      breakdownPipeSpec pi sq (setBD spec i (some (runningDiaAt spec i))) := by
  have hself : setBD spec i st.bottomDiameter = spec := by
    unfold setBD
    rw [setBDList_self spec.segments i st hget]
  have hjs1 : jsOr st.bottomDiameter (runningDiaAt spec i) =
      jsOr (some (runningDiaAt spec i)) (runningDiaAt spec i) := by
    rw [jsOr_some_self]
    rcases hbd with hbd | hbd <;> rw [hbd]
    · rfl
    · simp [jsOr]
  have hjs2 : jsOr (some (0 : ℚ)) (runningDiaAt spec i) = jsOr none (runningDiaAt spec i) := by
    simp [jsOr]
  refine ⟨?_, ?_, ?_⟩
  · conv_lhs => rw [← hself]
    exact validate_setBD_congr spec i st st.bottomDiameter (some (runningDiaAt spec i)) hget
      hty hjs1
  · exact validate_setBD_congr spec i st (some 0) none hget hty hjs2
  · conv_lhs => rw [← hself]
    exact breakdownPipeSpec_setBD_congr pi sq spec i st st.bottomDiameter
      (some (runningDiaAt spec i)) hget hty hjs1

/-- C10 witness: a declared frustrum with `bottomDiameter = 0` after a 1 m
initial diameter. -/
theorem falsy_bottom_diameter_substitution_witness :
    (specZeroBD.segments.get? 0 = some segZeroBD ∧ segZeroBD.type = SegType.frustrum ∧
      (segZeroBD.bottomDiameter = none ∨ segZeroBD.bottomDiameter = some 0)) ∧
    (validatePipeSpec specZeroBD =
        validatePipeSpec (setBD specZeroBD 0 (some (runningDiaAt specZeroBD 0))) ∧
      validatePipeSpec (setBD specZeroBD 0 (some 0)) =
        validatePipeSpec (setBD specZeroBD 0 none) ∧
      breakdownPipeSpec 3 (fun x => x) specZeroBD =
        breakdownPipeSpec 3 (fun x => x)
          (setBD specZeroBD 0 (some (runningDiaAt specZeroBD 0)))) :=
  ⟨⟨rfl, rfl, Or.inr rfl⟩,
    falsy_bottom_diameter_substitution specZeroBD 0 segZeroBD 3 (fun x => x) rfl rfl
      (Or.inr rfl)⟩

end Hema
